import Mathlib

/-!
# Verification of the `VimModeManager` modal editing engine

Shallow embedding of `src/renderer/vim-mode-manager` (the modal text-editing
engine of the prompt-line repository).  The buffer is a `List Char` (UTF-16
code units of the host textarea's value); positions are `Nat` offsets.
JavaScript `Math.max(0, x - 1)` on non-negative operands coincides with
truncated `Nat` subtraction, which is used throughout.

The host textarea is modelled inside the engine state (`text`, `selStart`,
`selEnd`, `selDir`).  Every call the engine makes to the host primitive
`setSelectionRange` is additionally recorded verbatim in the `calls` log
(arguments plus the buffer length at call time), so that statements about
"every call the engine makes to the selection-setting primitive" can be
made directly.  The model does not clamp the recorded arguments; the proofs
establish that all recorded calls are within bounds, on which set of states
the unclamped model agrees with the clamping DOM.

Asynchronous clipboard reads (`p`, `P`, visual `p`) are modelled by an
oracle argument `clip : Option (List Char)` carried by each key event: the
value the pending `readClipboardText()` resolves to (`none` = rejection or
unavailable clipboard).  The async body runs on the microtask after the
synchronous part of the handler; for `p`/`P` in Normal mode nothing happens
in between, while for visual `p` the synchronous anchor-clear and mode
switch run first — the model performs the steps in that order.

Key events whose handler returns `false` are left to the host widget; the
host's default behaviour is outside this component (spec §1) and is
modelled as a no-op on the engine state.  The host widget is assumed
present (a detached widget makes every operation a silent no-op).
-/

namespace VimEngine

/-- Selection directionality passed to `setSelectionRange`; `noDir` models the
DOM default when the third argument is omitted. -/
inductive SelDir where
  | forward
  | backward
  | noDir
deriving DecidableEq

/-- The four vim modes of the engine (`VimMode` in the source). -/
inductive Mode where
  | normal
  | insert
  | visual
  | visualLine
deriving DecidableEq

/-- One recorded call to the host's `setSelectionRange` primitive: the two
positional arguments and the buffer length at the moment of the call. -/
structure SelCall where
  lo : Nat
  hi : Nat
  len : Nat
deriving DecidableEq

/-- An undo/redo snapshot `{text, cursor}`. -/
structure Snapshot where
  text : List Char
  cursor : Nat
deriving DecidableEq

/-- Complete state of the `VimModeManager` together with its host textarea.
Undo/redo stacks are stored most-recent-first (`push` = cons), mirroring the
JS arrays which are most-recent-last (`push` = append, `shift` = drop
oldest, `pop` = take newest); `pendingTimer` records whether the
compound-key timeout is armed. -/
structure EngineState where
  text : List Char
  selStart : Nat
  selEnd : Nat
  selDir : SelDir
  calls : List SelCall
  mode : Mode
  yankBuffer : List Char
  visualStart : Option Nat
  undoStack : List Snapshot
  redoStack : List Snapshot
  pendingKey : Option String
  pendingTimer : Bool
  enabled : Bool
deriving DecidableEq

/-- A keydown event as seen by `handleKeyDown`: `event.key`, `event.ctrlKey`,
`event.shiftKey`, plus the clipboard oracle for an async read issued during
this event. -/
structure KeyEvent where
  key : String
  ctrl : Bool
  shift : Bool
deriving DecidableEq

/-- `textarea.setSelectionRange(lo, hi, dir)`: sets the range and records the
raw arguments in the instrumentation log. -/
def setSelectionRange (s : EngineState) (lo hi : Nat) (d : SelDir) : EngineState :=
  { s with selStart := lo, selEnd := hi, selDir := d,
           calls := s.calls ++ [⟨lo, hi, s.text.length⟩] }

/-- `textarea.value = t`.  The engine always follows a value assignment with a
`setSelectionRange` before reading the selection again, so the transient
selection state after the assignment is irrelevant and left unchanged. -/
def setValue (s : EngineState) (t : List Char) : EngineState :=
  { s with text := t }

/-- `getLineStart`: scan left from `pos` until just after a `'\n'` (or offset
0).  Out-of-range reads (`text[i]` with `i ≥ length`) yield `undefined` in
JS, which is `≠ '\n'`; `List.getD` with the `' '` default matches that. -/
def getLineStart (text : List Char) : Nat → Nat
  | 0 => 0
  | p + 1 => if text.getD p ' ' = '\n' then p + 1 else getLineStart text p

/-- Number of characters before the first `'\n'` of a list (helper for
`getLineEnd`). -/
def lineLenFrom : List Char → Nat
  | [] => 0
  | c :: cs => if c = '\n' then 0 else lineLenFrom cs + 1

/-- `getLineEnd`: scan right from `pos` while inside the buffer and not on a
`'\n'`. -/
def getLineEnd (text : List Char) (pos : Nat) : Nat :=
  pos + lineLenFrom (text.drop pos)

/-- `text.slice(a, b)` for `a ≤ b` (as used in the source). -/
def sliceList (text : List Char) (a b : Nat) : List Char :=
  (text.drop a).take (b - a)

/-- `updateCursorAppearance`: Normal mode selects the character at the cursor
(block cursor), or the last character at end of non-empty text; Insert mode
collapses the selection to a caret; Visual modes keep the selection. -/
def updateCursorAppearance (s : EngineState) (m : Mode) : EngineState :=
  if m = Mode.normal then
    let pos := s.selStart
    if pos < s.text.length then
      setSelectionRange s pos (pos + 1) SelDir.noDir
    else if 0 < s.text.length then
      setSelectionRange s (pos - 1) pos SelDir.noDir
    else s
  else if m = Mode.insert then
    setSelectionRange s s.selStart s.selStart SelDir.noDir
  else s

/-- `setMode`: store the mode, then update the cursor appearance (the
`data-vim-mode` attribute and the `onModeChange` callback have no engine
state). -/
def setMode (s : EngineState) (m : Mode) : EngineState :=
  updateCursorAppearance { s with mode := m } m

/-- `setPendingKey`: arm (or re-arm) the compound-key timeout. -/
def setPendingKey (s : EngineState) (k : String) : EngineState :=
  { s with pendingKey := some k, pendingTimer := true }

/-- `clearPendingKey`: cancel the timeout and clear the pending key. -/
def clearPendingKey (s : EngineState) : EngineState :=
  { s with pendingKey := none, pendingTimer := false }

/-- The pending-key timeout callback firing (after `PENDING_KEY_TIMEOUT` ms
with no second key): clears the pending key and the timer handle. -/
def pendingTimeoutFire (s : EngineState) : EngineState :=
  { s with pendingKey := none, pendingTimer := false }

/-- `maxUndoStack` (undo capacity). -/
def maxUndoStack : Nat := 100

/-- `saveState`: push `{text, cursor}` onto the undo stack, evict the oldest
entry when over capacity, clear the redo stack.  In the most-recent-first
representation the JS `shift()` (drop oldest) is `dropLast`. -/
def saveState (s : EngineState) : EngineState :=
  let pushed : List Snapshot := ⟨s.text, s.selStart⟩ :: s.undoStack
  let trimmed := if maxUndoStack < pushed.length then pushed.dropLast else pushed
  { s with undoStack := trimmed, redoStack := [] }

/-- `undo`: no-op on empty stack, else push the current state to redo, pop the
latest snapshot and restore buffer and cursor from it. -/
def undo (s : EngineState) : EngineState :=
  match s.undoStack with
  | [] => s
  | st :: rest =>
    let s1 := { s with redoStack := ⟨s.text, s.selStart⟩ :: s.redoStack,
                       undoStack := rest }
    setSelectionRange (setValue s1 st.text) st.cursor st.cursor SelDir.noDir

/-- `redo`: mirror of `undo`.  Note that the push onto the undo stack is not
capacity-trimmed here. -/
def redo (s : EngineState) : EngineState :=
  match s.redoStack with
  | [] => s
  | st :: rest =>
    let s1 := { s with undoStack := ⟨s.text, s.selStart⟩ :: s.undoStack,
                       redoStack := rest }
    setSelectionRange (setValue s1 st.text) st.cursor st.cursor SelDir.noDir

/-- `moveCursorLeft` (`Math.max(0, selStart - 1)` is `Nat` subtraction). -/
def moveCursorLeft (s : EngineState) : EngineState :=
  let newPos := s.selStart - 1
  let s1 := setSelectionRange s newPos newPos SelDir.noDir
  updateCursorAppearance s1 s1.mode

/-- `moveCursorRight`. -/
def moveCursorRight (s : EngineState) : EngineState :=
  let newPos := min s.text.length (s.selStart + 1)
  let s1 := setSelectionRange s newPos newPos SelDir.noDir
  updateCursorAppearance s1 s1.mode

/-- `moveCursorUp` (`k`): no-op on the first line; otherwise target column is
`max(0, min(col, max(0, prevLineLen - 1)))`. -/
def moveCursorUp (s : EngineState) : EngineState :=
  let pos := s.selStart
  let lineStart := getLineStart s.text pos
  if lineStart = 0 then s
  else
    let prevLineEnd := lineStart - 1
    let prevLineStart := getLineStart s.text prevLineEnd
    let prevLineLen := prevLineEnd - prevLineStart
    let col := pos - lineStart
    let targetCol := max 0 (min col (max 0 (prevLineLen - 1)))
    let newPos := prevLineStart + targetCol
    let s1 := setSelectionRange s newPos newPos SelDir.noDir
    updateCursorAppearance s1 s1.mode

/-- `moveCursorDown` (`j`): no-op on the last line; otherwise target column is
`max(0, min(col, max(0, nextLen - 1)))`. -/
def moveCursorDown (s : EngineState) : EngineState :=
  let pos := s.selStart
  let lineStart := getLineStart s.text pos
  let lineEnd := getLineEnd s.text pos
  if s.text.length ≤ lineEnd then s
  else
    let nextLineStart := lineEnd + 1
    let nextLineEnd := getLineEnd s.text nextLineStart
    let nextLen := nextLineEnd - nextLineStart
    let col := pos - lineStart
    let targetCol := max 0 (min col (max 0 (nextLen - 1)))
    let newPos := nextLineStart + targetCol
    let s1 := setSelectionRange s newPos newPos SelDir.noDir
    updateCursorAppearance s1 s1.mode

/-- `moveCursorToStart` (`gg`). -/
def moveCursorToStart (s : EngineState) : EngineState :=
  let s1 := setSelectionRange s 0 0 SelDir.noDir
  updateCursorAppearance s1 s1.mode

/-- `moveCursorToEnd` (`G`). -/
def moveCursorToEnd (s : EngineState) : EngineState :=
  let len := s.text.length
  let s1 := setSelectionRange s len len SelDir.noDir
  updateCursorAppearance s1 s1.mode

/-- `moveCursorToLineStart` (`I`). -/
def moveCursorToLineStart (s : EngineState) : EngineState :=
  let lineStart := getLineStart s.text s.selStart
  let s1 := setSelectionRange s lineStart lineStart SelDir.noDir
  updateCursorAppearance s1 s1.mode

/-- `moveCursorToLineEnd` (`A`). -/
def moveCursorToLineEnd (s : EngineState) : EngineState :=
  let lineEnd := getLineEnd s.text s.selStart
  let s1 := setSelectionRange s lineEnd lineEnd SelDir.noDir
  updateCursorAppearance s1 s1.mode

/-- `deleteCharAtCursor` (`x`): the undo snapshot is taken before the bounds
check; no yank. -/
def deleteCharAtCursor (s : EngineState) : EngineState :=
  let s0 := saveState s
  let pos := s0.selStart
  if pos < s0.text.length then
    let newText := s0.text.take pos ++ s0.text.drop (pos + 1)
    setSelectionRange (setValue s0 newText) pos pos SelDir.noDir
  else s0

/-- `deleteCurrentLine` (`dd`): snapshot, yank the line including its trailing
newline when it is not the last line (the `onYank` callback mirrors the yank
to the system clipboard, represented by the clipboard oracle), delete it. -/
def deleteCurrentLine (s : EngineState) : EngineState :=
  let s0 := saveState s
  let lineStart := getLineStart s0.text s0.selStart
  let lineEnd := getLineEnd s0.text s0.selStart
  let nextLineEnd := if lineEnd < s0.text.length then lineEnd + 1 else lineEnd
  let s1 := { s0 with yankBuffer := sliceList s0.text lineStart nextLineEnd }
  let newText := s1.text.take lineStart ++ s1.text.drop nextLineEnd
  setSelectionRange (setValue s1 newText) lineStart lineStart SelDir.noDir

/-- `yankCurrentLine` (`yy`). -/
def yankCurrentLine (s : EngineState) : EngineState :=
  let lineStart := getLineStart s.text s.selStart
  let lineEnd := getLineEnd s.text s.selStart
  let nextLineEnd := if lineEnd < s.text.length then lineEnd + 1 else lineEnd
  { s with yankBuffer := sliceList s.text lineStart nextLineEnd }

/-- `yankSelection` (visual `y`). -/
def yankSelection (s : EngineState) : EngineState :=
  { s with yankBuffer :=
      sliceList s.text (min s.selStart s.selEnd) (max s.selStart s.selEnd) }

/-- `deleteSelection` (visual `d`): snapshot, yank, delete, caret at the
selection start. -/
def deleteSelection (s : EngineState) : EngineState :=
  let s0 := saveState s
  let a := min s0.selStart s0.selEnd
  let b := max s0.selStart s0.selEnd
  let s1 := { s0 with yankBuffer := sliceList s0.text a b }
  let newText := s1.text.take a ++ s1.text.drop b
  setSelectionRange (setValue s1 newText) a a SelDir.noDir

/-- Effective paste text: the clipboard value when the read resolved to a
non-null, non-empty string, otherwise the yank buffer (JS
`(clip && clip.length > 0) ? clip : this.state.yankBuffer`). -/
def effectivePasteText (clip : Option (List Char)) (yank : List Char) : List Char :=
  match clip with
  | some c => if 0 < c.length then c else yank
  | none => yank

/-- `pasteAfterCursor` (`p`): async body; no-op when the effective text is
empty, else snapshot and insert at `min(length, selStart + 1)`. -/
def pasteAfterCursor (s : EngineState) (clip : Option (List Char)) : EngineState :=
  let text := effectivePasteText clip s.yankBuffer
  if text.length = 0 then s
  else
    let s0 := saveState s
    let pos := min s0.text.length (s0.selStart + 1)
    let newText := s0.text.take pos ++ text ++ s0.text.drop pos
    setSelectionRange (setValue s0 newText) pos pos SelDir.noDir

/-- `pasteBeforeCursor` (`P`): as `pasteAfterCursor` but inserting at
`selStart`. -/
def pasteBeforeCursor (s : EngineState) (clip : Option (List Char)) : EngineState :=
  let text := effectivePasteText clip s.yankBuffer
  if text.length = 0 then s
  else
    let s0 := saveState s
    let pos := s0.selStart
    let newText := s0.text.take pos ++ text ++ s0.text.drop pos
    setSelectionRange (setValue s0 newText) pos pos SelDir.noDir

/-- `replaceSelectionWithYank` (visual `p`, async body). -/
def replaceSelectionWithYank (s : EngineState) (clip : Option (List Char)) : EngineState :=
  let text := effectivePasteText clip s.yankBuffer
  if text.length = 0 then s
  else
    let s0 := saveState s
    let a := min s0.selStart s0.selEnd
    let b := max s0.selStart s0.selEnd
    let newText := s0.text.take a ++ text ++ s0.text.drop b
    setSelectionRange (setValue s0 newText) a a SelDir.noDir

/-- `insertLineBelow` (`o`): snapshot, insert `'\n'` at the end of the current
line, place the caret on the new line, enter Insert mode. -/
def insertLineBelow (s : EngineState) : EngineState :=
  let s0 := saveState s
  let lineEnd := getLineEnd s0.text s0.selStart
  let newPos := lineEnd + 1
  let newText := s0.text.take lineEnd ++ '\n' :: s0.text.drop lineEnd
  let s1 := setSelectionRange (setValue s0 newText) newPos newPos SelDir.noDir
  setMode s1 Mode.insert

/-- `insertLineAbove` (`O`): snapshot, insert `'\n'` before the current line,
enter Insert mode. -/
def insertLineAbove (s : EngineState) : EngineState :=
  let s0 := saveState s
  let lineStart := getLineStart s0.text s0.selStart
  let newText := s0.text.take lineStart ++ '\n' :: s0.text.drop lineStart
  let s1 := setSelectionRange (setValue s0 newText) lineStart lineStart SelDir.noDir
  setMode s1 Mode.insert

/-- `getVisualAnchorAndActive`: anchor is `visualStart ?? selectionStart`; the
active endpoint is the selection bound not equal to the anchor, defaulting
to the upper bound when the anchor matches neither. -/
def getVisualAnchorAndActive (s : EngineState) : Nat × Nat :=
  let anchor := s.visualStart.getD s.selStart
  let a := min s.selStart s.selEnd
  let b := max s.selStart s.selEnd
  let active := if anchor = b then a else b
  (anchor, active)

/-- `setSelectionWithDirection`: backward orientation when the active endpoint
is before the anchor. -/
def setSelectionWithDirection (s : EngineState) (anchor active : Nat) : EngineState :=
  if active < anchor then setSelectionRange s active anchor SelDir.backward
  else setSelectionRange s anchor active SelDir.forward

/-- `extendSelectionLeft` (visual `h`). -/
def extendSelectionLeft (s : EngineState) : EngineState :=
  match s.visualStart with
  | none => s
  | some _ =>
    let p := getVisualAnchorAndActive s
    setSelectionWithDirection s p.1 (p.2 - 1)

/-- `extendSelectionRight` (visual `l`). -/
def extendSelectionRight (s : EngineState) : EngineState :=
  match s.visualStart with
  | none => s
  | some _ =>
    let p := getVisualAnchorAndActive s
    setSelectionWithDirection s p.1 (min s.text.length (p.2 + 1))

/-- `extendSelectionUp` (visual `k`): column-preserving, target column
`max(0, min(col, prevLen))`. -/
def extendSelectionUp (s : EngineState) : EngineState :=
  match s.visualStart with
  | none => s
  | some _ =>
    let p := getVisualAnchorAndActive s
    let currentLineStart := getLineStart s.text p.2
    if currentLineStart = 0 then s
    else
      let prevLineEnd := currentLineStart - 1
      let prevLineStart := getLineStart s.text prevLineEnd
      let prevLen := prevLineEnd - prevLineStart
      let col := p.2 - currentLineStart
      let targetCol := max 0 (min col prevLen)
      setSelectionWithDirection s p.1 (prevLineStart + targetCol)

/-- `extendSelectionDown` (visual `j`). -/
def extendSelectionDown (s : EngineState) : EngineState :=
  match s.visualStart with
  | none => s
  | some _ =>
    let p := getVisualAnchorAndActive s
    let currentLineStart := getLineStart s.text p.2
    let currentLineEnd := getLineEnd s.text p.2
    if s.text.length ≤ currentLineEnd then s
    else
      let nextLineStart := currentLineEnd + 1
      let nextLineEnd := getLineEnd s.text nextLineStart
      let nextLen := nextLineEnd - nextLineStart
      let col := p.2 - currentLineStart
      let targetCol := max 0 (min col nextLen)
      setSelectionWithDirection s p.1 (nextLineStart + targetCol)

/-- `extendSelectionUpLine` (visual-line `k`): snap the active endpoint to the
end boundary of the previous line. -/
def extendSelectionUpLine (s : EngineState) : EngineState :=
  match s.visualStart with
  | none => s
  | some _ =>
    let p := getVisualAnchorAndActive s
    let currentLineStart := getLineStart s.text p.2
    if 0 < currentLineStart then
      setSelectionWithDirection s p.1 (currentLineStart - 1)
    else s

/-- `extendSelectionDownLine` (visual-line `j`): snap the active endpoint to
the end boundary of the next line. -/
def extendSelectionDownLine (s : EngineState) : EngineState :=
  match s.visualStart with
  | none => s
  | some _ =>
    let p := getVisualAnchorAndActive s
    let currentLineEnd := getLineEnd s.text p.2
    if currentLineEnd < s.text.length then
      setSelectionWithDirection s p.1 (getLineEnd s.text (currentLineEnd + 1))
    else s

/-- Body of the Normal-mode `v` case: anchor at the cursor, then select the
character under the cursor (or the one before it at end of text; zero-width
only on an empty buffer), then enter Visual mode. -/
def startVisual (s : EngineState) : EngineState :=
  let pos := s.selStart
  let s1 := { s with visualStart := some pos }
  let s2 :=
    if pos < s1.text.length then setSelectionRange s1 pos (pos + 1) SelDir.forward
    else if 0 < pos then setSelectionRange s1 (pos - 1) pos SelDir.backward
    else setSelectionRange s1 pos pos SelDir.noDir
  setMode s2 Mode.visual

/-- Body of the Normal-mode `V` case: anchor at the line start, select the
whole current line, enter Visual-Line mode. -/
def startVisualLine (s : EngineState) : EngineState :=
  let vs := getLineStart s.text s.selStart
  let s1 := { s with visualStart := some vs }
  let s2 := setSelectionRange s1 vs (getLineEnd s1.text s1.selStart) SelDir.noDir
  setMode s2 Mode.visualLine

/-- Unrecognized-key tail of `handleNormalMode`: consume any length-1 key
without a ctrl modifier, leave everything else unhandled. -/
def normalModeFallback (s : EngineState) (e : KeyEvent) : EngineState × Bool :=
  if e.key.length = 1 ∧ e.ctrl = false then (s, true) else (s, false)

/-- `handleNormalMode`: compound-key resolution first (any non-matching
concatenation clears the pending key and returns `false`), then the key
switch, then the consume-all fallback. -/
def handleNormalMode (s : EngineState) (e : KeyEvent) (clip : Option (List Char)) :
    EngineState × Bool :=
  match s.pendingKey with
  | some pk =>
    let compound := pk ++ e.key
    let s0 := clearPendingKey s
    if compound = "gg" then (moveCursorToStart s0, true)
    else if compound = "dd" then (deleteCurrentLine s0, true)
    else if compound = "yy" then (yankCurrentLine s0, true)
    else (s0, false)
  | none =>
    if e.key = "i" then (setMode s Mode.insert, true)
    else if e.key = "I" then (setMode (moveCursorToLineStart s) Mode.insert, true)
    else if e.key = "a" then (setMode (moveCursorRight s) Mode.insert, true)
    else if e.key = "A" then (setMode (moveCursorToLineEnd s) Mode.insert, true)
    else if e.key = "o" then (insertLineBelow s, true)
    else if e.key = "O" then
      if e.shift then (insertLineAbove s, true) else normalModeFallback s e
    else if e.key = "v" then (startVisual s, true)
    else if e.key = "V" then (startVisualLine s, true)
    else if e.key = "h" then (moveCursorLeft s, true)
    else if e.key = "j" then (moveCursorDown s, true)
    else if e.key = "k" then (moveCursorUp s, true)
    else if e.key = "l" then (moveCursorRight s, true)
    else if e.key = "Backspace" then (moveCursorLeft s, true)
    else if e.key = "G" then
      if e.shift then (moveCursorToEnd s, true) else normalModeFallback s e
    else if e.key = "x" then (deleteCharAtCursor s, true)
    else if e.key = "u" then (undo s, true)
    else if e.key = "U" then
      if e.shift then (redo s, true) else normalModeFallback s e
    else if e.key = "p" then (pasteAfterCursor s clip, true)
    else if e.key = "P" then
      if e.shift then (pasteBeforeCursor s clip, true) else normalModeFallback s e
    else if e.key = "q" then (s, true)
    else if e.key = "g" ∨ e.key = "d" ∨ e.key = "y" then (setPendingKey s e.key, true)
    else normalModeFallback s e

/-- `handleInsertMode`: only `Escape`/`Ctrl+[` is intercepted (snapshot, back
to Normal, cursor one position left); everything else is pass-through. -/
def handleInsertMode (s : EngineState) (e : KeyEvent) : EngineState × Bool :=
  if e.key = "Escape" ∨ (e.ctrl = true ∧ e.key = "[") then
    (moveCursorLeft (setMode (saveState s) Mode.normal), true)
  else (s, false)

/-- The key switch of `handleVisualMode` (after the Escape check and the
pending-compound block, which falls through here on an unknown compound). -/
def visualModeSwitch (s : EngineState) (e : KeyEvent) (clip : Option (List Char)) :
    EngineState × Bool :=
  if e.key = "g" then (setPendingKey s "g", true)
  else if e.key = "G" then
    let anchor := s.visualStart.getD s.selStart
    let endPos := s.text.length
    if s.mode = Mode.visualLine then
      (setSelectionWithDirection s anchor (getLineEnd s.text endPos), true)
    else
      (setSelectionWithDirection s anchor endPos, true)
  else if e.key = "y" then
    let s1 := yankSelection s
    let s2 := setSelectionRange s1 s1.selStart s1.selStart SelDir.noDir
    (setMode { s2 with visualStart := none } Mode.normal, true)
  else if e.key = "d" then
    let s1 := deleteSelection s
    (setMode { s1 with visualStart := none } Mode.normal, true)
  else if e.key = "p" then
    let s1 := setMode { s with visualStart := none } Mode.normal
    (replaceSelectionWithYank s1 clip, true)
  else if e.key = "h" then (extendSelectionLeft s, true)
  else if e.key = "l" then (extendSelectionRight s, true)
  else if e.key = "j" then
    (if s.mode = Mode.visualLine then extendSelectionDownLine s
     else extendSelectionDown s, true)
  else if e.key = "k" then
    (if s.mode = Mode.visualLine then extendSelectionUpLine s
     else extendSelectionUp s, true)
  else (s, false)

/-- `handleVisualMode`: Escape/`Ctrl+[` collapses the selection to
`selectionStart` and returns to Normal; a pending compound resolves `gg`
(extend to buffer start) and otherwise clears the pending key and falls
through to the ordinary key switch. -/
def handleVisualMode (s : EngineState) (e : KeyEvent) (clip : Option (List Char)) :
    EngineState × Bool :=
  if e.key = "Escape" ∨ (e.ctrl = true ∧ e.key = "[") then
    let s1 := setSelectionRange s s.selStart s.selStart SelDir.noDir
    (setMode { s1 with visualStart := none } Mode.normal, true)
  else
    match s.pendingKey with
    | some pk =>
      let s0 := clearPendingKey s
      if pk ++ e.key = "gg" then
        let anchor := s0.visualStart.getD s0.selStart
        if s0.mode = Mode.visualLine then
          (setSelectionWithDirection s0 anchor 0, true)
        else
          (setSelectionWithDirection s0 anchor 0, true)
      else visualModeSwitch s0 e clip
    | none => visualModeSwitch s e clip

/-- `handleKeyDown`: nothing when disabled, else dispatch on the mode. -/
def handleKeyDown (s : EngineState) (e : KeyEvent) (clip : Option (List Char)) :
    EngineState × Bool :=
  if s.enabled = false then (s, false)
  else
    match s.mode with
    | Mode.normal => handleNormalMode s e clip
    | Mode.insert => handleInsertMode s e
    | Mode.visual => handleVisualMode s e clip
    | Mode.visualLine => handleVisualMode s e clip

/-- `setEnabled`: enabling enters Normal mode and takes a snapshot; disabling
returns to Insert (plain text box).  Neither branch touches the pending key
or its timer. -/
def setEnabled (s : EngineState) (b : Bool) : EngineState :=
  let s1 := { s with enabled := b }
  if b then saveState (setMode s1 Mode.normal)
  else setMode s1 Mode.insert

/-- `cleanup`: cancel the pending-key timeout (the pending key itself is not
cleared). -/
def cleanup (s : EngineState) : EngineState :=
  { s with pendingTimer := false }

/-- Fold a sequence of key events (each with its clipboard oracle) through
`handleKeyDown`. -/
def run (s : EngineState) : List (KeyEvent × Option (List Char)) → EngineState
  | [] => s
  | (e, clip) :: rest => run (handleKeyDown s e clip).1 rest

/-- Well-formedness of an engine state: the selection is an ordered range
inside the buffer; during Visual modes the anchor lies inside the buffer;
every stored snapshot has its cursor inside its text. -/
def wf (s : EngineState) : Prop :=
  s.selStart ≤ s.selEnd ∧ s.selEnd ≤ s.text.length ∧
  ((s.mode = Mode.visual ∨ s.mode = Mode.visualLine) →
    s.visualStart.getD 0 ≤ s.text.length) ∧
  (∀ sn ∈ s.undoStack, sn.cursor ≤ sn.text.length) ∧
  (∀ sn ∈ s.redoStack, sn.cursor ≤ sn.text.length)

/-- A recorded `setSelectionRange` call is in bounds:
`0 ≤ lo ≤ hi ≤ buffer.length` (the lower bound is automatic for `Nat`). -/
def callOk (c : SelCall) : Prop := c.lo ≤ c.hi ∧ c.hi ≤ c.len

/-- Every call in the new log is either inherited from the old log or in
bounds. -/
def callsOk (old new : List SelCall) : Prop := ∀ c ∈ new, c ∈ old ∨ callOk c

/-- Combined postcondition for one engine operation starting from `s`. -/
def Ok (s t : EngineState) : Prop := wf t ∧ callsOk s.calls t.calls

/-- Zero-based index of the line containing offset `p` (number of newlines
before `p`). -/
def lineIdx (t : List Char) (p : Nat) : Nat := (t.take p).count '\n'

/-- The three undo-history operations of the engine (claim C4 interleaves
them freely). -/
inductive UndoOp where
  | save
  | doUndo
  | doRedo
deriving DecidableEq

/-- Apply one undo-history operation. -/
def applyUndoOp (s : EngineState) : UndoOp → EngineState
  | UndoOp.save => saveState s
  | UndoOp.doUndo => undo s
  | UndoOp.doRedo => redo s

/-- Apply a sequence of undo-history operations. -/
def applyUndoOps (s : EngineState) : List UndoOp → EngineState
  | [] => s
  | op :: rest => applyUndoOps (applyUndoOp s op) rest

/-- A fresh engine state over buffer `t` with selection `[ss, se]`, mode `m`,
empty registers/stacks and no pending key (used for concrete scenarios). -/
def mkState (t : String) (ss se : Nat) (m : Mode) : EngineState :=
  { text := t.toList, selStart := ss, selEnd := se, selDir := SelDir.noDir,
    calls := [], mode := m, yankBuffer := [], visualStart := none,
    undoStack := [], redoStack := [], pendingKey := none, pendingTimer := false,
    enabled := true }

/-- A plain key event without modifiers. -/
def kev (k : String) : KeyEvent := ⟨k, false, false⟩

/-- A key event with the shift modifier. -/
def kevS (k : String) : KeyEvent := ⟨k, false, true⟩

/-- Destination offset of the `k` (line up) motion: previous line start plus
the clamped column `min(col, prevLineLen - 1)` (truncated subtraction). -/
def moveUpTarget (t : List Char) (pos : Nat) : Nat :=
  let lineStart := getLineStart t pos
  let prevLineEnd := lineStart - 1
  let prevLineStart := getLineStart t prevLineEnd
  prevLineStart + min (pos - lineStart) (prevLineEnd - prevLineStart - 1)

/-- Destination offset of the `j` (line down) motion: next line start plus
the clamped column `min(col, nextLineLen - 1)` (truncated subtraction). -/
def moveDownTarget (t : List Char) (pos : Nat) : Nat :=
  let lineStart := getLineStart t pos
  let nextLineStart := getLineEnd t pos + 1
  let nextLineEnd := getLineEnd t nextLineStart
  nextLineStart + min (pos - lineStart) (nextLineEnd - nextLineStart - 1)

/-- Like `Ok` but without the Visual-anchor clause: used for intermediate
states whose stale anchor is cleared by the surrounding handler before the
event finishes. -/
def OkNV (s t : EngineState) : Prop :=
  t.selStart ≤ t.selEnd ∧ t.selEnd ≤ t.text.length ∧
  (∀ sn ∈ t.undoStack, sn.cursor ≤ sn.text.length) ∧
  (∀ sn ∈ t.redoStack, sn.cursor ≤ sn.text.length) ∧
  callsOk s.calls t.calls

theorem getLineStart_le (t : List Char) (p : Nat) : getLineStart t p ≤ p := by
  induction p with
  | zero => simp [getLineStart]
  | succ n ih =>
    unfold getLineStart
    split
    · exact Nat.le_refl _
    · exact Nat.le_trans ih (Nat.le_succ n)

theorem getLineStart_no_newline (t : List Char) (p : Nat) :
    ∀ i, getLineStart t p ≤ i → i < p → t.getD i ' ' ≠ '\n' := by
  induction p with
  | zero => intro i _ h2; omega
  | succ n ih =>
    intro i h1 h2
    unfold getLineStart at h1
    by_cases hc : t.getD n ' ' = '\n'
    · rw [if_pos hc] at h1; omega
    · rw [if_neg hc] at h1
      rcases Nat.lt_succ_iff_lt_or_eq.mp h2 with h | h
      · exact ih i h1 h
      · subst h; exact hc

theorem lineLenFrom_le (l : List Char) : lineLenFrom l ≤ l.length := by
  induction l with
  | nil => simp [lineLenFrom]
  | cons c cs ih =>
    unfold lineLenFrom
    split
    · simp
    · simpa using Nat.succ_le_succ ih

theorem getLineEnd_le (t : List Char) (p : Nat) (h : p ≤ t.length) :
    getLineEnd t p ≤ t.length := by
  have h2 := lineLenFrom_le (t.drop p)
  simp only [List.length_drop] at h2
  unfold getLineEnd
  omega

theorem le_getLineEnd (t : List Char) (p : Nat) : p ≤ getLineEnd t p :=
  Nat.le_add_right _ _

theorem callsOk_refl (l : List SelCall) : callsOk l l := fun _ hc => Or.inl hc

theorem callsOk_trans {a b c : List SelCall} (h1 : callsOk a b) (h2 : callsOk b c) :
    callsOk a c := by
  intro x hx
  rcases h2 x hx with h | h
  · exact h1 x h
  · exact Or.inr h

theorem Ok_trans {s t u : EngineState} (h1 : Ok s t) (h2 : Ok t u) : Ok s u :=
  ⟨h2.1, callsOk_trans h1.2 h2.2⟩

theorem Ok_refl {s : EngineState} (h : wf s) : Ok s s := ⟨h, callsOk_refl _⟩

theorem setSelectionRange_core {s : EngineState} {a b : Nat} {d : SelDir}
    (hab : a ≤ b) (hb : b ≤ s.text.length)
    (hv : ((s.mode = Mode.visual ∨ s.mode = Mode.visualLine) →
      s.visualStart.getD 0 ≤ s.text.length))
    (h4 : ∀ sn ∈ s.undoStack, sn.cursor ≤ sn.text.length)
    (h5 : ∀ sn ∈ s.redoStack, sn.cursor ≤ sn.text.length) :
    Ok s (setSelectionRange s a b d) := by
  refine ⟨⟨hab, hb, hv, h4, h5⟩, ?_⟩
  intro c hc
  simp only [setSelectionRange, List.mem_append, List.mem_singleton] at hc
  rcases hc with hc | hc
  · exact Or.inl hc
  · subst hc; exact Or.inr ⟨hab, hb⟩

theorem setSelectionRange_ok {s : EngineState} {a b : Nat} {d : SelDir}
    (h : wf s) (hab : a ≤ b) (hb : b ≤ s.text.length) :
    Ok s (setSelectionRange s a b d) :=
  setSelectionRange_core hab hb h.2.2.1 h.2.2.2.1 h.2.2.2.2

theorem updateCursorAppearance_ok {s : EngineState} (m : Mode) (h : wf s) :
    Ok s (updateCursorAppearance s m) := by
  have hss : s.selStart ≤ s.text.length := Nat.le_trans h.1 h.2.1
  unfold updateCursorAppearance
  dsimp only
  split_ifs with hm hlt hpos
  · exact setSelectionRange_ok h (Nat.le_succ _) hlt
  · exact setSelectionRange_ok h (Nat.sub_le _ _) hss
  · exact Ok_refl h
  · exact setSelectionRange_ok h (Nat.le_refl _) hss
  · exact Ok_refl h

theorem setMode_ok {s : EngineState} {m : Mode} (h : wf s)
    (hv : (m = Mode.visual ∨ m = Mode.visualLine) →
      s.visualStart.getD 0 ≤ s.text.length) :
    Ok s (setMode s m) := by
  have hwf : wf { s with mode := m } := ⟨h.1, h.2.1, hv, h.2.2.2.1, h.2.2.2.2⟩
  exact updateCursorAppearance_ok m hwf

theorem saveState_ok {s : EngineState} (h : wf s) : Ok s (saveState s) := by
  obtain ⟨h1, h2, h3, h4, _⟩ := h
  refine ⟨⟨h1, h2, h3, ?_, ?_⟩, callsOk_refl _⟩
  · intro sn hsn
    simp only [saveState] at hsn
    split at hsn
    · have hsub := (List.dropLast_sublist _).subset hsn
      rcases List.mem_cons.mp hsub with hc | hc
      · subst hc; exact Nat.le_trans h1 h2
      · exact h4 sn hc
    · rcases List.mem_cons.mp hsn with hc | hc
      · subst hc; exact Nat.le_trans h1 h2
      · exact h4 sn hc
  · intro sn hsn
    simp only [saveState] at hsn
    exact absurd hsn (List.not_mem_nil sn)

theorem undo_ok {s : EngineState} (h : wf s)
    (hm : s.mode = Mode.normal) : Ok s (undo s) := by
  obtain ⟨h1, h2, _, h4, h5⟩ := h
  unfold undo
  cases hu : s.undoStack with
  | nil => exact Ok_refl ⟨h1, h2, by rw [hm]; intro hx; rcases hx with hx | hx <;> simp at hx, h4, h5⟩
  | cons st rest =>
    dsimp only
    have hst : st.cursor ≤ st.text.length := h4 st (by rw [hu]; exact List.mem_cons_self _ _)
    apply setSelectionRange_core (Nat.le_refl _) hst
    · rw [hm]; intro hx; rcases hx with hx | hx <;> simp [setValue] at hx
    · intro sn hsn
      exact h4 sn (by rw [hu]; exact List.mem_cons_of_mem _ hsn)
    · intro sn hsn
      rcases List.mem_cons.mp hsn with hc | hc
      · subst hc; exact Nat.le_trans h1 h2
      · exact h5 sn hc

theorem redo_ok {s : EngineState} (h : wf s)
    (hm : s.mode = Mode.normal) : Ok s (redo s) := by
  obtain ⟨h1, h2, _, h4, h5⟩ := h
  unfold redo
  cases hu : s.redoStack with
  | nil => exact Ok_refl ⟨h1, h2, by rw [hm]; intro hx; rcases hx with hx | hx <;> simp at hx, h4, h5⟩
  | cons st rest =>
    dsimp only
    have hst : st.cursor ≤ st.text.length := h5 st (by rw [hu]; exact List.mem_cons_self _ _)
    apply setSelectionRange_core (Nat.le_refl _) hst
    · rw [hm]; intro hx; rcases hx with hx | hx <;> simp [setValue] at hx
    · intro sn hsn
      rcases List.mem_cons.mp hsn with hc | hc
      · subst hc; exact Nat.le_trans h1 h2
      · exact h4 sn hc
    · intro sn hsn
      exact h5 sn (by rw [hu]; exact List.mem_cons_of_mem _ hsn)

theorem moveCursorLeft_ok {s : EngineState} (h : wf s) : Ok s (moveCursorLeft s) := by
  have h1 : Ok s (setSelectionRange s (s.selStart - 1) (s.selStart - 1) SelDir.noDir) :=
    setSelectionRange_ok h (Nat.le_refl _)
      (Nat.le_trans (Nat.sub_le _ _) (Nat.le_trans h.1 h.2.1))
  exact Ok_trans h1 (updateCursorAppearance_ok _ h1.1)

theorem moveCursorRight_ok {s : EngineState} (h : wf s) : Ok s (moveCursorRight s) := by
  have h1 : Ok s (setSelectionRange s (min s.text.length (s.selStart + 1))
      (min s.text.length (s.selStart + 1)) SelDir.noDir) :=
    setSelectionRange_ok h (Nat.le_refl _) (Nat.min_le_left _ _)
  exact Ok_trans h1 (updateCursorAppearance_ok _ h1.1)

theorem moveCursorUp_ok {s : EngineState} (h : wf s) : Ok s (moveCursorUp s) := by
  unfold moveCursorUp
  dsimp only
  split_ifs with h0
  · exact Ok_refl h
  · have hls := getLineStart_le s.text s.selStart
    have hpls := getLineStart_le s.text (getLineStart s.text s.selStart - 1)
    have hss : s.selStart ≤ s.text.length := Nat.le_trans h.1 h.2.1
    have h1 : Ok s (setSelectionRange s
        (getLineStart s.text (getLineStart s.text s.selStart - 1) +
          max 0 (min (s.selStart - getLineStart s.text s.selStart)
            (max 0 (getLineStart s.text s.selStart - 1 -
              getLineStart s.text (getLineStart s.text s.selStart - 1) - 1))))
        (getLineStart s.text (getLineStart s.text s.selStart - 1) +
          max 0 (min (s.selStart - getLineStart s.text s.selStart)
            (max 0 (getLineStart s.text s.selStart - 1 -
              getLineStart s.text (getLineStart s.text s.selStart - 1) - 1))))
        SelDir.noDir) :=
      setSelectionRange_ok h (Nat.le_refl _) (by omega)
    exact Ok_trans h1 (updateCursorAppearance_ok _ h1.1)

theorem moveCursorDown_ok {s : EngineState} (h : wf s) : Ok s (moveCursorDown s) := by
  unfold moveCursorDown
  dsimp only
  split_ifs with h0
  · exact Ok_refl h
  · have hle : getLineEnd s.text s.selStart < s.text.length := by omega
    have hnle : getLineEnd s.text (getLineEnd s.text s.selStart + 1) ≤ s.text.length :=
      getLineEnd_le _ _ (by omega)
    have hnls : getLineEnd s.text s.selStart + 1 ≤
        getLineEnd s.text (getLineEnd s.text s.selStart + 1) :=
      le_getLineEnd _ _
    have h1 : Ok s (setSelectionRange s
        (getLineEnd s.text s.selStart + 1 +
          max 0 (min (s.selStart - getLineStart s.text s.selStart)
            (max 0 (getLineEnd s.text (getLineEnd s.text s.selStart + 1) -
              (getLineEnd s.text s.selStart + 1) - 1))))
        (getLineEnd s.text s.selStart + 1 +
          max 0 (min (s.selStart - getLineStart s.text s.selStart)
            (max 0 (getLineEnd s.text (getLineEnd s.text s.selStart + 1) -
              (getLineEnd s.text s.selStart + 1) - 1))))
        SelDir.noDir) :=
      setSelectionRange_ok h (Nat.le_refl _) (by omega)
    exact Ok_trans h1 (updateCursorAppearance_ok _ h1.1)

theorem moveCursorToStart_ok {s : EngineState} (h : wf s) : Ok s (moveCursorToStart s) := by
  have h1 : Ok s (setSelectionRange s 0 0 SelDir.noDir) :=
    setSelectionRange_ok h (Nat.le_refl _) (Nat.zero_le _)
  exact Ok_trans h1 (updateCursorAppearance_ok _ h1.1)

theorem moveCursorToEnd_ok {s : EngineState} (h : wf s) : Ok s (moveCursorToEnd s) := by
  have h1 : Ok s (setSelectionRange s s.text.length s.text.length SelDir.noDir) :=
    setSelectionRange_ok h (Nat.le_refl _) (Nat.le_refl _)
  exact Ok_trans h1 (updateCursorAppearance_ok _ h1.1)

theorem moveCursorToLineStart_ok {s : EngineState} (h : wf s) :
    Ok s (moveCursorToLineStart s) := by
  have hb : getLineStart s.text s.selStart ≤ s.text.length :=
    Nat.le_trans (getLineStart_le _ _) (Nat.le_trans h.1 h.2.1)
  have h1 : Ok s (setSelectionRange s (getLineStart s.text s.selStart)
      (getLineStart s.text s.selStart) SelDir.noDir) :=
    setSelectionRange_ok h (Nat.le_refl _) hb
  exact Ok_trans h1 (updateCursorAppearance_ok _ h1.1)

theorem moveCursorToLineEnd_ok {s : EngineState} (h : wf s) :
    Ok s (moveCursorToLineEnd s) := by
  have hb : getLineEnd s.text s.selStart ≤ s.text.length :=
    getLineEnd_le _ _ (Nat.le_trans h.1 h.2.1)
  have h1 : Ok s (setSelectionRange s (getLineEnd s.text s.selStart)
      (getLineEnd s.text s.selStart) SelDir.noDir) :=
    setSelectionRange_ok h (Nat.le_refl _) hb
  exact Ok_trans h1 (updateCursorAppearance_ok _ h1.1)

@[simp] theorem saveState_text (s : EngineState) : (saveState s).text = s.text := rfl

@[simp] theorem saveState_selStart (s : EngineState) : (saveState s).selStart = s.selStart := rfl

@[simp] theorem saveState_selEnd (s : EngineState) : (saveState s).selEnd = s.selEnd := rfl

@[simp] theorem saveState_mode (s : EngineState) : (saveState s).mode = s.mode := rfl

@[simp] theorem saveState_visualStart (s : EngineState) :
    (saveState s).visualStart = s.visualStart := rfl

@[simp] theorem saveState_calls (s : EngineState) : (saveState s).calls = s.calls := rfl

@[simp] theorem saveState_yankBuffer (s : EngineState) :
    (saveState s).yankBuffer = s.yankBuffer := rfl

@[simp] theorem saveState_pendingKey (s : EngineState) :
    (saveState s).pendingKey = s.pendingKey := rfl

@[simp] theorem saveState_redoStack (s : EngineState) : (saveState s).redoStack = [] := rfl

@[simp] theorem saveState_enabled (s : EngineState) : (saveState s).enabled = s.enabled := rfl

@[simp] theorem saveState_pendingTimer (s : EngineState) :
    (saveState s).pendingTimer = s.pendingTimer := rfl

@[simp] theorem setPendingKey_text (s : EngineState) (k : String) :
    (setPendingKey s k).text = s.text := rfl

@[simp] theorem setPendingKey_selStart (s : EngineState) (k : String) :
    (setPendingKey s k).selStart = s.selStart := rfl

@[simp] theorem setPendingKey_selEnd (s : EngineState) (k : String) :
    (setPendingKey s k).selEnd = s.selEnd := rfl

@[simp] theorem setPendingKey_mode (s : EngineState) (k : String) :
    (setPendingKey s k).mode = s.mode := rfl

@[simp] theorem setPendingKey_enabled (s : EngineState) (k : String) :
    (setPendingKey s k).enabled = s.enabled := rfl

@[simp] theorem setPendingKey_pendingKey (s : EngineState) (k : String) :
    (setPendingKey s k).pendingKey = some k := rfl

@[simp] theorem setPendingKey_yankBuffer (s : EngineState) (k : String) :
    (setPendingKey s k).yankBuffer = s.yankBuffer := rfl

@[simp] theorem setPendingKey_undoStack (s : EngineState) (k : String) :
    (setPendingKey s k).undoStack = s.undoStack := rfl

@[simp] theorem setPendingKey_redoStack (s : EngineState) (k : String) :
    (setPendingKey s k).redoStack = s.redoStack := rfl

@[simp] theorem setPendingKey_visualStart (s : EngineState) (k : String) :
    (setPendingKey s k).visualStart = s.visualStart := rfl

@[simp] theorem clearPendingKey_text (s : EngineState) :
    (clearPendingKey s).text = s.text := rfl

@[simp] theorem clearPendingKey_selStart (s : EngineState) :
    (clearPendingKey s).selStart = s.selStart := rfl

@[simp] theorem clearPendingKey_selEnd (s : EngineState) :
    (clearPendingKey s).selEnd = s.selEnd := rfl

@[simp] theorem clearPendingKey_mode (s : EngineState) :
    (clearPendingKey s).mode = s.mode := rfl

@[simp] theorem clearPendingKey_enabled (s : EngineState) :
    (clearPendingKey s).enabled = s.enabled := rfl

@[simp] theorem clearPendingKey_pendingKey (s : EngineState) :
    (clearPendingKey s).pendingKey = none := rfl

@[simp] theorem clearPendingKey_yankBuffer (s : EngineState) :
    (clearPendingKey s).yankBuffer = s.yankBuffer := rfl

@[simp] theorem clearPendingKey_undoStack (s : EngineState) :
    (clearPendingKey s).undoStack = s.undoStack := rfl

@[simp] theorem clearPendingKey_redoStack (s : EngineState) :
    (clearPendingKey s).redoStack = s.redoStack := rfl

@[simp] theorem clearPendingKey_visualStart (s : EngineState) :
    (clearPendingKey s).visualStart = s.visualStart := rfl

@[simp] theorem setValue_text (s : EngineState) (t : List Char) :
    (setValue s t).text = t := rfl

@[simp] theorem setValue_selStart (s : EngineState) (t : List Char) :
    (setValue s t).selStart = s.selStart := rfl

@[simp] theorem setValue_selEnd (s : EngineState) (t : List Char) :
    (setValue s t).selEnd = s.selEnd := rfl

@[simp] theorem setValue_mode (s : EngineState) (t : List Char) :
    (setValue s t).mode = s.mode := rfl

@[simp] theorem setValue_visualStart (s : EngineState) (t : List Char) :
    (setValue s t).visualStart = s.visualStart := rfl

@[simp] theorem setValue_calls (s : EngineState) (t : List Char) :
    (setValue s t).calls = s.calls := rfl

@[simp] theorem setValue_undoStack (s : EngineState) (t : List Char) :
    (setValue s t).undoStack = s.undoStack := rfl

@[simp] theorem setValue_enabled (s : EngineState) (t : List Char) :
    (setValue s t).enabled = s.enabled := rfl

@[simp] theorem setValue_pendingKey (s : EngineState) (t : List Char) :
    (setValue s t).pendingKey = s.pendingKey := rfl

@[simp] theorem setValue_yankBuffer (s : EngineState) (t : List Char) :
    (setValue s t).yankBuffer = s.yankBuffer := rfl

@[simp] theorem setValue_redoStack (s : EngineState) (t : List Char) :
    (setValue s t).redoStack = s.redoStack := rfl

@[simp] theorem setSelectionRange_text (s : EngineState) (a b : Nat) (d : SelDir) :
    (setSelectionRange s a b d).text = s.text := rfl

@[simp] theorem setSelectionRange_selStart (s : EngineState) (a b : Nat) (d : SelDir) :
    (setSelectionRange s a b d).selStart = a := rfl

@[simp] theorem setSelectionRange_selEnd (s : EngineState) (a b : Nat) (d : SelDir) :
    (setSelectionRange s a b d).selEnd = b := rfl

@[simp] theorem setSelectionRange_selDir (s : EngineState) (a b : Nat) (d : SelDir) :
    (setSelectionRange s a b d).selDir = d := rfl

@[simp] theorem setSelectionRange_mode (s : EngineState) (a b : Nat) (d : SelDir) :
    (setSelectionRange s a b d).mode = s.mode := rfl

@[simp] theorem setSelectionRange_visualStart (s : EngineState) (a b : Nat) (d : SelDir) :
    (setSelectionRange s a b d).visualStart = s.visualStart := rfl

@[simp] theorem setSelectionRange_undoStack (s : EngineState) (a b : Nat) (d : SelDir) :
    (setSelectionRange s a b d).undoStack = s.undoStack := rfl

@[simp] theorem setSelectionRange_redoStack (s : EngineState) (a b : Nat) (d : SelDir) :
    (setSelectionRange s a b d).redoStack = s.redoStack := rfl

@[simp] theorem setSelectionRange_yankBuffer (s : EngineState) (a b : Nat) (d : SelDir) :
    (setSelectionRange s a b d).yankBuffer = s.yankBuffer := rfl

@[simp] theorem setSelectionRange_pendingKey (s : EngineState) (a b : Nat) (d : SelDir) :
    (setSelectionRange s a b d).pendingKey = s.pendingKey := rfl

@[simp] theorem setSelectionRange_enabled (s : EngineState) (a b : Nat) (d : SelDir) :
    (setSelectionRange s a b d).enabled = s.enabled := rfl

@[simp] theorem updateCursorAppearance_text (s : EngineState) (m : Mode) :
    (updateCursorAppearance s m).text = s.text := by
  unfold updateCursorAppearance; dsimp only; split_ifs <;> rfl

@[simp] theorem updateCursorAppearance_mode (s : EngineState) (m : Mode) :
    (updateCursorAppearance s m).mode = s.mode := by
  unfold updateCursorAppearance; dsimp only; split_ifs <;> rfl

@[simp] theorem updateCursorAppearance_visualStart (s : EngineState) (m : Mode) :
    (updateCursorAppearance s m).visualStart = s.visualStart := by
  unfold updateCursorAppearance; dsimp only; split_ifs <;> rfl

@[simp] theorem updateCursorAppearance_undoStack (s : EngineState) (m : Mode) :
    (updateCursorAppearance s m).undoStack = s.undoStack := by
  unfold updateCursorAppearance; dsimp only; split_ifs <;> rfl

@[simp] theorem updateCursorAppearance_redoStack (s : EngineState) (m : Mode) :
    (updateCursorAppearance s m).redoStack = s.redoStack := by
  unfold updateCursorAppearance; dsimp only; split_ifs <;> rfl

@[simp] theorem updateCursorAppearance_yankBuffer (s : EngineState) (m : Mode) :
    (updateCursorAppearance s m).yankBuffer = s.yankBuffer := by
  unfold updateCursorAppearance; dsimp only; split_ifs <;> rfl

@[simp] theorem updateCursorAppearance_pendingKey (s : EngineState) (m : Mode) :
    (updateCursorAppearance s m).pendingKey = s.pendingKey := by
  unfold updateCursorAppearance; dsimp only; split_ifs <;> rfl

@[simp] theorem setMode_mode (s : EngineState) (m : Mode) : (setMode s m).mode = m := by
  unfold setMode; simp

@[simp] theorem setMode_text (s : EngineState) (m : Mode) : (setMode s m).text = s.text := by
  unfold setMode; simp

@[simp] theorem setMode_visualStart (s : EngineState) (m : Mode) :
    (setMode s m).visualStart = s.visualStart := by
  unfold setMode; simp

@[simp] theorem setMode_undoStack (s : EngineState) (m : Mode) :
    (setMode s m).undoStack = s.undoStack := by
  unfold setMode; simp

@[simp] theorem setMode_redoStack (s : EngineState) (m : Mode) :
    (setMode s m).redoStack = s.redoStack := by
  unfold setMode; simp

@[simp] theorem setMode_yankBuffer (s : EngineState) (m : Mode) :
    (setMode s m).yankBuffer = s.yankBuffer := by
  unfold setMode; simp

@[simp] theorem setMode_pendingKey (s : EngineState) (m : Mode) :
    (setMode s m).pendingKey = s.pendingKey := by
  unfold setMode; simp

@[simp] theorem setMode_visual_eq (s : EngineState) :
    setMode s Mode.visual = { s with mode := Mode.visual } := by
  simp [setMode, updateCursorAppearance]

@[simp] theorem setMode_visualLine_eq (s : EngineState) :
    setMode s Mode.visualLine = { s with mode := Mode.visualLine } := by
  simp [setMode, updateCursorAppearance]

/-- Discharge the Visual-anchor clause of `wf` for a state whose mode equals a
Normal-mode source state's mode. -/
theorem notVisual_clause {s t : EngineState} (hmode : t.mode = s.mode)
    (hm : s.mode = Mode.normal) :
    (t.mode = Mode.visual ∨ t.mode = Mode.visualLine) →
      t.visualStart.getD 0 ≤ t.text.length := by
  intro hx
  rw [hmode, hm] at hx
  rcases hx with hx | hx <;> simp at hx

/-- Discharge the Visual-anchor clause of `wf` when the mode is `insert`. -/
theorem insertMode_clause {t : EngineState} (hmode : t.mode = Mode.insert) :
    (t.mode = Mode.visual ∨ t.mode = Mode.visualLine) →
      t.visualStart.getD 0 ≤ t.text.length := by
  intro hx
  rw [hmode] at hx
  rcases hx with hx | hx <;> simp at hx

theorem clearPendingKey_ok {s : EngineState} (h : wf s) : Ok s (clearPendingKey s) :=
  ⟨⟨h.1, h.2.1, h.2.2.1, h.2.2.2.1, h.2.2.2.2⟩, callsOk_refl _⟩

theorem setPendingKey_ok {s : EngineState} (h : wf s) (k : String) :
    Ok s (setPendingKey s k) :=
  ⟨⟨h.1, h.2.1, h.2.2.1, h.2.2.2.1, h.2.2.2.2⟩, callsOk_refl _⟩

theorem yankCurrentLine_ok {s : EngineState} (h : wf s) : Ok s (yankCurrentLine s) :=
  ⟨⟨h.1, h.2.1, h.2.2.1, h.2.2.2.1, h.2.2.2.2⟩, callsOk_refl _⟩

theorem yankSelection_ok {s : EngineState} (h : wf s) : Ok s (yankSelection s) :=
  ⟨⟨h.1, h.2.1, h.2.2.1, h.2.2.2.1, h.2.2.2.2⟩, callsOk_refl _⟩

theorem deleteCharAtCursor_ok {s : EngineState} (h : wf s) (hm : s.mode = Mode.normal) :
    Ok s (deleteCharAtCursor s) := by
  have h0 := saveState_ok h
  unfold deleteCharAtCursor
  dsimp only
  split_ifs with hlt
  · refine Ok_trans h0 ?_
    apply setSelectionRange_core (Nat.le_refl _)
    · simp only [setValue_text, saveState_text, saveState_selStart,
        List.length_append, List.length_take, List.length_drop]
      simp only [saveState_text, saveState_selStart] at hlt
      omega
    · exact notVisual_clause rfl hm
    · exact h0.1.2.2.2.1
    · exact h0.1.2.2.2.2
  · exact h0

theorem deleteCurrentLine_ok {s : EngineState} (h : wf s) (hm : s.mode = Mode.normal) :
    Ok s (deleteCurrentLine s) := by
  have h0 := saveState_ok h
  have hls : getLineStart s.text s.selStart ≤ s.selStart := getLineStart_le _ _
  have hsel : s.selStart ≤ s.text.length := Nat.le_trans h.1 h.2.1
  unfold deleteCurrentLine
  dsimp only
  refine Ok_trans h0 ?_
  apply setSelectionRange_core (Nat.le_refl _)
  · simp only [setValue_text, saveState_text, saveState_selStart,
      List.length_append, List.length_take, List.length_drop]
    omega
  · exact notVisual_clause rfl hm
  · exact h0.1.2.2.2.1
  · exact h0.1.2.2.2.2

theorem pasteAfterCursor_ok {s : EngineState} (h : wf s) (hm : s.mode = Mode.normal)
    (clip : Option (List Char)) : Ok s (pasteAfterCursor s clip) := by
  have h0 := saveState_ok h
  unfold pasteAfterCursor
  dsimp only
  split_ifs with hz
  · exact Ok_refl h
  · refine Ok_trans h0 ?_
    apply setSelectionRange_core (Nat.le_refl _)
    · simp only [setValue_text, saveState_text, saveState_selStart,
        List.length_append, List.length_take, List.length_drop]
      omega
    · exact notVisual_clause rfl hm
    · exact h0.1.2.2.2.1
    · exact h0.1.2.2.2.2

theorem pasteBeforeCursor_ok {s : EngineState} (h : wf s) (hm : s.mode = Mode.normal)
    (clip : Option (List Char)) : Ok s (pasteBeforeCursor s clip) := by
  have h0 := saveState_ok h
  have hsel : s.selStart ≤ s.text.length := Nat.le_trans h.1 h.2.1
  unfold pasteBeforeCursor
  dsimp only
  split_ifs with hz
  · exact Ok_refl h
  · refine Ok_trans h0 ?_
    apply setSelectionRange_core (Nat.le_refl _)
    · simp only [setValue_text, saveState_text, saveState_selStart,
        List.length_append, List.length_take, List.length_drop]
      omega
    · exact notVisual_clause rfl hm
    · exact h0.1.2.2.2.1
    · exact h0.1.2.2.2.2

theorem replaceSelectionWithYank_ok {s : EngineState} (h : wf s)
    (hm : s.mode = Mode.normal) (clip : Option (List Char)) :
    Ok s (replaceSelectionWithYank s clip) := by
  have h0 := saveState_ok h
  have hsel : s.selStart ≤ s.text.length := Nat.le_trans h.1 h.2.1
  have hse : s.selEnd ≤ s.text.length := h.2.1
  unfold replaceSelectionWithYank
  dsimp only
  split_ifs with hz
  · exact Ok_refl h
  · refine Ok_trans h0 ?_
    apply setSelectionRange_core (Nat.le_refl _)
    · simp only [setValue_text, saveState_text, saveState_selStart, saveState_selEnd,
        List.length_append, List.length_take, List.length_drop]
      omega
    · exact notVisual_clause rfl hm
    · exact h0.1.2.2.2.1
    · exact h0.1.2.2.2.2

theorem insertLineBelow_ok {s : EngineState} (h : wf s) (hm : s.mode = Mode.normal) :
    Ok s (insertLineBelow s) := by
  have h0 := saveState_ok h
  have hle : getLineEnd s.text s.selStart ≤ s.text.length :=
    getLineEnd_le _ _ (Nat.le_trans h.1 h.2.1)
  unfold insertLineBelow
  dsimp only
  have h1 : Ok s (setSelectionRange
      (setValue (saveState s) ((saveState s).text.take
        (getLineEnd (saveState s).text (saveState s).selStart) ++
        '\n' :: (saveState s).text.drop (getLineEnd (saveState s).text (saveState s).selStart)))
      (getLineEnd (saveState s).text (saveState s).selStart + 1)
      (getLineEnd (saveState s).text (saveState s).selStart + 1) SelDir.noDir) := by
    refine Ok_trans h0 ?_
    apply setSelectionRange_core (Nat.le_refl _)
    · simp only [setValue_text, saveState_text, saveState_selStart,
        List.length_append, List.length_take, List.length_cons, List.length_drop]
      omega
    · exact notVisual_clause rfl hm
    · exact h0.1.2.2.2.1
    · exact h0.1.2.2.2.2
  exact Ok_trans h1 (setMode_ok h1.1 (by intro hx; rcases hx with hx | hx <;> simp at hx))

theorem insertLineAbove_ok {s : EngineState} (h : wf s) (hm : s.mode = Mode.normal) :
    Ok s (insertLineAbove s) := by
  have h0 := saveState_ok h
  have hls : getLineStart s.text s.selStart ≤ s.selStart := getLineStart_le _ _
  have hsel : s.selStart ≤ s.text.length := Nat.le_trans h.1 h.2.1
  unfold insertLineAbove
  dsimp only
  have h1 : Ok s (setSelectionRange
      (setValue (saveState s) ((saveState s).text.take
        (getLineStart (saveState s).text (saveState s).selStart) ++
        '\n' :: (saveState s).text.drop (getLineStart (saveState s).text (saveState s).selStart)))
      (getLineStart (saveState s).text (saveState s).selStart)
      (getLineStart (saveState s).text (saveState s).selStart) SelDir.noDir) := by
    refine Ok_trans h0 ?_
    apply setSelectionRange_core (Nat.le_refl _)
    · simp only [setValue_text, saveState_text, saveState_selStart,
        List.length_append, List.length_take, List.length_cons, List.length_drop]
      omega
    · exact notVisual_clause rfl hm
    · exact h0.1.2.2.2.1
    · exact h0.1.2.2.2.2
  exact Ok_trans h1 (setMode_ok h1.1 (by intro hx; rcases hx with hx | hx <;> simp at hx))

/-- The Visual-mode clause can never fire for a `Mode.normal` literal. -/
theorem normalLit_clause {P : Prop} :
    (Mode.normal = Mode.visual ∨ Mode.normal = Mode.visualLine) → P := by
  intro hx; rcases hx with hx | hx <;> simp at hx

/-- The Visual-mode clause can never fire for a `Mode.insert` literal. -/
theorem insertLit_clause {P : Prop} :
    (Mode.insert = Mode.visual ∨ Mode.insert = Mode.visualLine) → P := by
  intro hx; rcases hx with hx | hx <;> simp at hx

theorem anchor_le {s : EngineState} (h : wf s)
    (hv : s.visualStart.getD 0 ≤ s.text.length) :
    s.visualStart.getD s.selStart ≤ s.text.length := by
  cases hvs : s.visualStart with
  | none => simpa using Nat.le_trans h.1 h.2.1
  | some v => rw [hvs] at hv; simpa using hv

theorem anchorActive_le {s : EngineState} (h : wf s)
    (hv : s.visualStart.getD 0 ≤ s.text.length) :
    (getVisualAnchorAndActive s).1 ≤ s.text.length ∧
      (getVisualAnchorAndActive s).2 ≤ s.text.length := by
  have h1 := h.1
  have h2 := h.2.1
  unfold getVisualAnchorAndActive
  dsimp only
  refine ⟨anchor_le h hv, ?_⟩
  split_ifs <;> omega

theorem setSelectionWithDirection_ok {s : EngineState} {anchor active : Nat}
    (h : wf s) (ha : anchor ≤ s.text.length) (hb : active ≤ s.text.length) :
    Ok s (setSelectionWithDirection s anchor active) := by
  unfold setSelectionWithDirection
  split_ifs with hc
  · exact setSelectionRange_ok h (by omega) ha
  · exact setSelectionRange_ok h (by omega) hb

theorem extendSelectionLeft_ok {s : EngineState} (h : wf s)
    (hm : s.mode = Mode.visual ∨ s.mode = Mode.visualLine) :
    Ok s (extendSelectionLeft s) := by
  unfold extendSelectionLeft
  cases hvs : s.visualStart with
  | none => exact Ok_refl h
  | some v =>
    dsimp only
    have hb := anchorActive_le h (h.2.2.1 hm)
    exact setSelectionWithDirection_ok h hb.1 (Nat.le_trans (Nat.sub_le _ _) hb.2)

theorem extendSelectionRight_ok {s : EngineState} (h : wf s)
    (hm : s.mode = Mode.visual ∨ s.mode = Mode.visualLine) :
    Ok s (extendSelectionRight s) := by
  unfold extendSelectionRight
  cases hvs : s.visualStart with
  | none => exact Ok_refl h
  | some v =>
    dsimp only
    have hb := anchorActive_le h (h.2.2.1 hm)
    exact setSelectionWithDirection_ok h hb.1 (Nat.min_le_left _ _)

theorem extendSelectionUp_ok {s : EngineState} (h : wf s)
    (hm : s.mode = Mode.visual ∨ s.mode = Mode.visualLine) :
    Ok s (extendSelectionUp s) := by
  unfold extendSelectionUp
  cases hvs : s.visualStart with
  | none => exact Ok_refl h
  | some v =>
    dsimp only
    have hb := anchorActive_le h (h.2.2.1 hm)
    split_ifs with h0
    · exact Ok_refl h
    · have hcls := getLineStart_le s.text (getVisualAnchorAndActive s).2
      have hpls := getLineStart_le s.text
        (getLineStart s.text (getVisualAnchorAndActive s).2 - 1)
      exact setSelectionWithDirection_ok h hb.1 (by omega)

theorem extendSelectionDown_ok {s : EngineState} (h : wf s)
    (hm : s.mode = Mode.visual ∨ s.mode = Mode.visualLine) :
    Ok s (extendSelectionDown s) := by
  unfold extendSelectionDown
  cases hvs : s.visualStart with
  | none => exact Ok_refl h
  | some v =>
    dsimp only
    have hb := anchorActive_le h (h.2.2.1 hm)
    split_ifs with h0
    · exact Ok_refl h
    · have hnle : getLineEnd s.text (getLineEnd s.text (getVisualAnchorAndActive s).2 + 1) ≤
          s.text.length := getLineEnd_le _ _ (by omega)
      have hnls : getLineEnd s.text (getVisualAnchorAndActive s).2 + 1 ≤
          getLineEnd s.text (getLineEnd s.text (getVisualAnchorAndActive s).2 + 1) :=
        le_getLineEnd _ _
      exact setSelectionWithDirection_ok h hb.1 (by omega)

theorem extendSelectionUpLine_ok {s : EngineState} (h : wf s)
    (hm : s.mode = Mode.visual ∨ s.mode = Mode.visualLine) :
    Ok s (extendSelectionUpLine s) := by
  unfold extendSelectionUpLine
  cases hvs : s.visualStart with
  | none => exact Ok_refl h
  | some v =>
    dsimp only
    have hb := anchorActive_le h (h.2.2.1 hm)
    split_ifs with h0
    · have hcls := getLineStart_le s.text (getVisualAnchorAndActive s).2
      exact setSelectionWithDirection_ok h hb.1 (by omega)
    · exact Ok_refl h

theorem extendSelectionDownLine_ok {s : EngineState} (h : wf s)
    (hm : s.mode = Mode.visual ∨ s.mode = Mode.visualLine) :
    Ok s (extendSelectionDownLine s) := by
  unfold extendSelectionDownLine
  cases hvs : s.visualStart with
  | none => exact Ok_refl h
  | some v =>
    dsimp only
    have hb := anchorActive_le h (h.2.2.1 hm)
    split_ifs with h0
    · exact setSelectionWithDirection_ok h hb.1 (getLineEnd_le _ _ (by omega))
    · exact Ok_refl h

theorem OkNV_clearVisual {s t : EngineState} (h : OkNV s t) :
    Ok s { t with visualStart := none } :=
  ⟨⟨h.1, h.2.1, by intro _; simp, h.2.2.1, h.2.2.2.1⟩, h.2.2.2.2⟩

theorem Ok_toNV {s t : EngineState} (h : Ok s t) : OkNV s t :=
  ⟨h.1.1, h.1.2.1, h.1.2.2.2.1, h.1.2.2.2.2, h.2⟩

theorem deleteSelection_nv {s : EngineState} (h : wf s) : OkNV s (deleteSelection s) := by
  have h0 := saveState_ok h
  have hsel : s.selStart ≤ s.text.length := Nat.le_trans h.1 h.2.1
  have hse : s.selEnd ≤ s.text.length := h.2.1
  unfold deleteSelection
  dsimp only
  refine ⟨?_, ?_, ?_, ?_, ?_⟩
  · exact Nat.le_refl _
  · simp only [setSelectionRange_selEnd, setSelectionRange_text, setValue_text,
      saveState_text, saveState_selStart, saveState_selEnd,
      List.length_append, List.length_take, List.length_drop]
    omega
  · exact h0.1.2.2.2.1
  · exact h0.1.2.2.2.2
  · intro c hc
    simp only [setSelectionRange, setValue_calls, saveState_calls, List.mem_append,
      List.mem_singleton] at hc
    rcases hc with hc | hc
    · exact Or.inl hc
    · subst hc
      refine Or.inr ⟨Nat.le_refl _, ?_⟩
      simp only [setValue_text, saveState_text, saveState_selStart, saveState_selEnd,
        List.length_append, List.length_take, List.length_drop]
      omega

theorem startVisual_ok {s : EngineState} (h : wf s) (hm : s.mode = Mode.normal) :
    Ok s (startVisual s) := by
  have hsel : s.selStart ≤ s.text.length := Nat.le_trans h.1 h.2.1
  unfold startVisual
  dsimp only
  have h1 : wf { s with visualStart := some s.selStart } :=
    ⟨h.1, h.2.1, notVisual_clause rfl hm, h.2.2.2.1, h.2.2.2.2⟩
  split_ifs with hlt hpos
  · have h2 := setSelectionRange_ok (a := s.selStart) (b := s.selStart + 1)
      (d := SelDir.forward) h1 (Nat.le_succ _) hlt
    refine Ok_trans ⟨h1, callsOk_refl _⟩ (Ok_trans h2 (setMode_ok h2.1 ?_))
    intro _
    simpa using Nat.le_of_lt hlt
  · have h2 := setSelectionRange_ok (a := s.selStart - 1) (b := s.selStart)
      (d := SelDir.backward) h1 (Nat.sub_le _ _) hsel
    refine Ok_trans ⟨h1, callsOk_refl _⟩ (Ok_trans h2 (setMode_ok h2.1 ?_))
    intro _
    simpa using hsel
  · have h2 := setSelectionRange_ok (a := s.selStart) (b := s.selStart)
      (d := SelDir.noDir) h1 (Nat.le_refl _) hsel
    refine Ok_trans ⟨h1, callsOk_refl _⟩ (Ok_trans h2 (setMode_ok h2.1 ?_))
    intro _
    simpa using hsel

theorem startVisualLine_ok {s : EngineState} (h : wf s) (hm : s.mode = Mode.normal) :
    Ok s (startVisualLine s) := by
  have hsel : s.selStart ≤ s.text.length := Nat.le_trans h.1 h.2.1
  have hls : getLineStart s.text s.selStart ≤ s.selStart := getLineStart_le _ _
  have hle : getLineEnd s.text s.selStart ≤ s.text.length := getLineEnd_le _ _ hsel
  have hsle : s.selStart ≤ getLineEnd s.text s.selStart := le_getLineEnd _ _
  unfold startVisualLine
  dsimp only
  have h1 : wf { s with visualStart := some (getLineStart s.text s.selStart) } :=
    ⟨h.1, h.2.1, notVisual_clause rfl hm, h.2.2.2.1, h.2.2.2.2⟩
  have h2 := setSelectionRange_ok (a := getLineStart s.text s.selStart)
    (b := getLineEnd s.text s.selStart) (d := SelDir.noDir) h1 (by omega) hle
  refine Ok_trans ⟨h1, callsOk_refl _⟩ (Ok_trans h2 (setMode_ok h2.1 ?_))
  intro _
  simpa using Nat.le_trans hls hsel

theorem Ok_clearVisual_self {s : EngineState} (h : wf s) :
    Ok s { s with visualStart := none } :=
  OkNV_clearVisual ⟨h.1, h.2.1, h.2.2.2.1, h.2.2.2.2, callsOk_refl _⟩

theorem normalModeFallback_fst (s : EngineState) (e : KeyEvent) :
    (normalModeFallback s e).1 = s := by
  unfold normalModeFallback; split_ifs <;> rfl

theorem handleInsertMode_ok {s : EngineState} (h : wf s) (e : KeyEvent) :
    Ok s (handleInsertMode s e).1 := by
  unfold handleInsertMode
  split_ifs with hk
  · have h0 := saveState_ok h
    have h1 := setMode_ok (m := Mode.normal) h0.1 normalLit_clause
    have h2 := moveCursorLeft_ok h1.1
    exact Ok_trans h0 (Ok_trans h1 h2)
  · exact Ok_refl h

set_option maxHeartbeats 2000000 in
theorem visualModeSwitch_ok {s : EngineState} (h : wf s)
    (hm : s.mode = Mode.visual ∨ s.mode = Mode.visualLine)
    (e : KeyEvent) (clip : Option (List Char)) :
    Ok s (visualModeSwitch s e clip).1 := by
  have hv := h.2.2.1 hm
  have hanchor := anchor_le h hv
  have hsel : s.selStart ≤ s.text.length := Nat.le_trans h.1 h.2.1
  unfold visualModeSwitch
  dsimp only
  split_ifs with hg hG hmv hy hd hp hh hl hj hjl hk hkl
  · exact setPendingKey_ok h _
  · exact setSelectionWithDirection_ok h hanchor (getLineEnd_le _ _ (Nat.le_refl _))
  · exact setSelectionWithDirection_ok h hanchor (Nat.le_refl _)
  · have h1 := yankSelection_ok h
    have h2 := setSelectionRange_ok (a := (yankSelection s).selStart)
      (b := (yankSelection s).selStart) (d := SelDir.noDir) h1.1 (Nat.le_refl _) hsel
    have h3 := Ok_clearVisual_self (Ok_trans h1 h2).1
    have h4 := setMode_ok (m := Mode.normal) h3.1 normalLit_clause
    exact Ok_trans (Ok_trans (Ok_trans h1 h2) h3) h4
  · have h1 := OkNV_clearVisual (deleteSelection_nv h)
    exact Ok_trans h1 (setMode_ok h1.1 normalLit_clause)
  · have h1 := Ok_clearVisual_self h
    have h2 := setMode_ok (m := Mode.normal) h1.1 normalLit_clause
    have h3 := replaceSelectionWithYank_ok (Ok_trans h1 h2).1 (by simp) clip
    exact Ok_trans (Ok_trans h1 h2) h3
  · exact extendSelectionLeft_ok h hm
  · exact extendSelectionRight_ok h hm
  · exact extendSelectionDownLine_ok h hm
  · exact extendSelectionDown_ok h hm
  · exact extendSelectionUpLine_ok h hm
  · exact extendSelectionUp_ok h hm
  · exact Ok_refl h

set_option maxHeartbeats 2000000 in
theorem handleVisualMode_ok {s : EngineState} (h : wf s)
    (hm : s.mode = Mode.visual ∨ s.mode = Mode.visualLine)
    (e : KeyEvent) (clip : Option (List Char)) :
    Ok s (handleVisualMode s e clip).1 := by
  unfold handleVisualMode
  split_ifs with hesc
  · have hsel : s.selStart ≤ s.text.length := Nat.le_trans h.1 h.2.1
    have h1 := setSelectionRange_ok (a := s.selStart) (b := s.selStart)
      (d := SelDir.noDir) h (Nat.le_refl _) hsel
    have h2 := OkNV_clearVisual (Ok_toNV h1)
    exact Ok_trans h2 (setMode_ok h2.1 normalLit_clause)
  · cases hp : s.pendingKey with
    | some pk =>
      dsimp only
      have hc := clearPendingKey_ok h
      split_ifs with hgg hml
      · exact Ok_trans hc (setSelectionWithDirection_ok hc.1
          (anchor_le hc.1 (hc.1.2.2.1 hm)) (Nat.zero_le _))
      · exact Ok_trans hc (setSelectionWithDirection_ok hc.1
          (anchor_le hc.1 (hc.1.2.2.1 hm)) (Nat.zero_le _))
      · exact Ok_trans hc (visualModeSwitch_ok hc.1 hm e clip)
    | none => exact visualModeSwitch_ok h hm e clip

set_option maxHeartbeats 2000000 in
theorem handleNormalMode_ok {s : EngineState} (h : wf s) (hm : s.mode = Mode.normal)
    (e : KeyEvent) (clip : Option (List Char)) :
    Ok s (handleNormalMode s e clip).1 := by
  unfold handleNormalMode
  cases hp : s.pendingKey with
  | some pk =>
    dsimp only
    have hc := clearPendingKey_ok h
    split_ifs with h1 h2 h3
    · exact Ok_trans hc (moveCursorToStart_ok hc.1)
    · exact Ok_trans hc (deleteCurrentLine_ok hc.1 hm)
    · exact Ok_trans hc (yankCurrentLine_ok hc.1)
    · exact hc
  | none =>
    dsimp only
    by_cases k1 : e.key = "i"
    · rw [if_pos k1]; exact setMode_ok h insertLit_clause
    rw [if_neg k1]
    by_cases k2 : e.key = "I"
    · rw [if_pos k2]
      have h1 := moveCursorToLineStart_ok h
      exact Ok_trans h1 (setMode_ok h1.1 insertLit_clause)
    rw [if_neg k2]
    by_cases k3 : e.key = "a"
    · rw [if_pos k3]
      have h1 := moveCursorRight_ok h
      exact Ok_trans h1 (setMode_ok h1.1 insertLit_clause)
    rw [if_neg k3]
    by_cases k4 : e.key = "A"
    · rw [if_pos k4]
      have h1 := moveCursorToLineEnd_ok h
      exact Ok_trans h1 (setMode_ok h1.1 insertLit_clause)
    rw [if_neg k4]
    by_cases k5 : e.key = "o"
    · rw [if_pos k5]; exact insertLineBelow_ok h hm
    rw [if_neg k5]
    by_cases k6 : e.key = "O"
    · rw [if_pos k6]
      by_cases k7 : e.shift
      · rw [if_pos k7]; exact insertLineAbove_ok h hm
      · rw [if_neg k7, normalModeFallback_fst]; exact Ok_refl h
    rw [if_neg k6]
    by_cases k8 : e.key = "v"
    · rw [if_pos k8]; exact startVisual_ok h hm
    rw [if_neg k8]
    by_cases k9 : e.key = "V"
    · rw [if_pos k9]; exact startVisualLine_ok h hm
    rw [if_neg k9]
    by_cases k10 : e.key = "h"
    · rw [if_pos k10]; exact moveCursorLeft_ok h
    rw [if_neg k10]
    by_cases k11 : e.key = "j"
    · rw [if_pos k11]; exact moveCursorDown_ok h
    rw [if_neg k11]
    by_cases k12 : e.key = "k"
    · rw [if_pos k12]; exact moveCursorUp_ok h
    rw [if_neg k12]
    by_cases k13 : e.key = "l"
    · rw [if_pos k13]; exact moveCursorRight_ok h
    rw [if_neg k13]
    by_cases k14 : e.key = "Backspace"
    · rw [if_pos k14]; exact moveCursorLeft_ok h
    rw [if_neg k14]
    by_cases k15 : e.key = "G"
    · rw [if_pos k15]
      by_cases k16 : e.shift
      · rw [if_pos k16]; exact moveCursorToEnd_ok h
      · rw [if_neg k16, normalModeFallback_fst]; exact Ok_refl h
    rw [if_neg k15]
    by_cases k17 : e.key = "x"
    · rw [if_pos k17]; exact deleteCharAtCursor_ok h hm
    rw [if_neg k17]
    by_cases k18 : e.key = "u"
    · rw [if_pos k18]; exact undo_ok h hm
    rw [if_neg k18]
    by_cases k19 : e.key = "U"
    · rw [if_pos k19]
      by_cases k20 : e.shift
      · rw [if_pos k20]; exact redo_ok h hm
      · rw [if_neg k20, normalModeFallback_fst]; exact Ok_refl h
    rw [if_neg k19]
    by_cases k21 : e.key = "p"
    · rw [if_pos k21]; exact pasteAfterCursor_ok h hm clip
    rw [if_neg k21]
    by_cases k22 : e.key = "P"
    · rw [if_pos k22]
      by_cases k23 : e.shift
      · rw [if_pos k23]; exact pasteBeforeCursor_ok h hm clip
      · rw [if_neg k23, normalModeFallback_fst]; exact Ok_refl h
    rw [if_neg k22]
    by_cases k24 : e.key = "q"
    · rw [if_pos k24]; exact Ok_refl h
    rw [if_neg k24]
    by_cases k25 : e.key = "g" ∨ e.key = "d" ∨ e.key = "y"
    · rw [if_pos k25]; exact setPendingKey_ok h _
    rw [if_neg k25, normalModeFallback_fst]
    exact Ok_refl h

theorem handleKeyDown_ok {s : EngineState} (h : wf s) (e : KeyEvent)
    (clip : Option (List Char)) : Ok s (handleKeyDown s e clip).1 := by
  unfold handleKeyDown
  split_ifs with hd
  · exact Ok_refl h
  · cases hmode : s.mode with
    | normal => exact handleNormalMode_ok h hmode e clip
    | insert => exact handleInsertMode_ok h e
    | visual => exact handleVisualMode_ok h (Or.inl hmode) e clip
    | visualLine => exact handleVisualMode_ok h (Or.inr hmode) e clip

theorem run_ok {s : EngineState} (h : wf s)
    (evs : List (KeyEvent × Option (List Char))) : Ok s (run s evs) := by
  induction evs generalizing s with
  | nil => exact Ok_refl h
  | cons ec rest ih =>
    obtain ⟨e, clip⟩ := ec
    have h1 := handleKeyDown_ok h e clip
    exact Ok_trans h1 (ih h1.1)

/-- C2: for every sequence of key events dispatched through `handleKeyDown`
from a well-formed state, after each event the selection satisfies
`0 ≤ selectionStart ≤ selectionEnd ≤ buffer.length` (the lower bound is
automatic for `Nat`), and every call the engine made to the
selection-setting primitive `setSelectionRange` passed arguments within
these bounds, lower not exceeding upper (the `calls` log records every such
call verbatim).  Quantifying over all event sequences covers every prefix,
hence the invariant after each event. -/
theorem c2_selection_invariant (s : EngineState) (h : wf s) (hcalls : s.calls = [])
    (evs : List (KeyEvent × Option (List Char))) :
    ((run s evs).selStart ≤ (run s evs).selEnd ∧
      (run s evs).selEnd ≤ (run s evs).text.length) ∧
    (∀ c ∈ (run s evs).calls, callOk c) := by
  have h1 := run_ok h evs
  refine ⟨⟨h1.1.1, h1.1.2.1⟩, ?_⟩
  intro c hc
  rcases h1.2 c hc with hcon | hok
  · rw [hcalls] at hcon
    exact absurd hcon (List.not_mem_nil c)
  · exact hok

/-- Witness for C2 at a concrete state and event sequence (enter Visual,
extend, Escape, then `dd` and `p`). -/
theorem c2_selection_invariant_witness :
    (wf (mkState "ab\nc" 1 2 Mode.normal) ∧ (mkState "ab\nc" 1 2 Mode.normal).calls = []) ∧
    (((run (mkState "ab\nc" 1 2 Mode.normal)
        [(kev "v", none), (kev "l", none), (kev "Escape", none),
         (kev "d", none), (kev "d", none), (kev "p", none)]).selStart ≤
      (run (mkState "ab\nc" 1 2 Mode.normal)
        [(kev "v", none), (kev "l", none), (kev "Escape", none),
         (kev "d", none), (kev "d", none), (kev "p", none)]).selEnd ∧
      (run (mkState "ab\nc" 1 2 Mode.normal)
        [(kev "v", none), (kev "l", none), (kev "Escape", none),
         (kev "d", none), (kev "d", none), (kev "p", none)]).selEnd ≤
      (run (mkState "ab\nc" 1 2 Mode.normal)
        [(kev "v", none), (kev "l", none), (kev "Escape", none),
         (kev "d", none), (kev "d", none), (kev "p", none)]).text.length) ∧
    (∀ c ∈ (run (mkState "ab\nc" 1 2 Mode.normal)
        [(kev "v", none), (kev "l", none), (kev "Escape", none),
         (kev "d", none), (kev "d", none), (kev "p", none)]).calls, callOk c)) :=
  ⟨⟨by unfold wf mkState; decide, rfl⟩,
    c2_selection_invariant _ (by unfold wf mkState; decide) rfl _⟩

theorem undoOps_step_inv (s : EngineState)
    (hinv : s.undoStack.length + s.redoStack.length ≤ maxUndoStack) (op : UndoOp) :
    (applyUndoOp s op).undoStack.length + (applyUndoOp s op).redoStack.length ≤
      maxUndoStack := by
  cases op with
  | save =>
    simp only [applyUndoOp, saveState]
    split_ifs with hfull
    · simp only [List.length_dropLast, List.length_cons, List.length_nil]
      omega
    · simp only [List.length_cons, List.length_nil] at hfull ⊢
      omega
  | doUndo =>
    simp only [applyUndoOp, undo]
    cases hu : s.undoStack with
    | nil => simpa [hu] using hinv
    | cons st rest =>
      rw [hu] at hinv
      simp only [setSelectionRange_undoStack, setSelectionRange_redoStack,
        setValue_undoStack, setValue_redoStack, List.length_cons] at hinv ⊢
      omega
  | doRedo =>
    simp only [applyUndoOp, redo]
    cases hr : s.redoStack with
    | nil => simpa [hr] using hinv
    | cons st rest =>
      rw [hr] at hinv
      simp only [setSelectionRange_undoStack, setSelectionRange_redoStack,
        setValue_undoStack, setValue_redoStack, List.length_cons] at hinv ⊢
      omega

theorem undoOps_inv (s : EngineState)
    (hinv : s.undoStack.length + s.redoStack.length ≤ maxUndoStack)
    (ops : List UndoOp) :
    (applyUndoOps s ops).undoStack.length + (applyUndoOps s ops).redoStack.length ≤
      maxUndoStack := by
  induction ops generalizing s with
  | nil => exact hinv
  | cons op rest ih => exact ih _ (undoOps_step_inv s hinv op)

/-- C4: starting from the engine's initial empty history, any interleaving of
`saveState`/`undo`/`redo` keeps the undo stack at no more than the capacity
of 100; a `saveState` push onto a full undo stack discards the oldest entry
(in the most-recent-first representation: the new snapshot is kept and the
last list entry, the oldest, is dropped); and every `saveState` push clears
the redo stack. -/
theorem c4_undo_stack_bounded (s : EngineState)
    (hu : s.undoStack = []) (hr : s.redoStack = []) :
    (∀ ops : List UndoOp, (applyUndoOps s ops).undoStack.length ≤ maxUndoStack) ∧
    (∀ t : EngineState, t.undoStack.length = maxUndoStack →
      (saveState t).undoStack.length = maxUndoStack ∧
      (saveState t).undoStack =
        Snapshot.mk t.text t.selStart :: t.undoStack.dropLast) ∧
    (∀ t : EngineState, (saveState t).redoStack = []) := by
  refine ⟨?_, ?_, fun t => rfl⟩
  · intro ops
    have h0 : s.undoStack.length + s.redoStack.length ≤ maxUndoStack := by
      rw [hu, hr]; simp [maxUndoStack]
    have := undoOps_inv s h0 ops
    omega
  · intro t ht
    have hne : t.undoStack ≠ [] := by
      intro hcon
      rw [hcon] at ht
      simp [maxUndoStack] at ht
    constructor
    · simp only [saveState]
      rw [if_pos (by simp [ht, maxUndoStack])]
      simp [ht]
    · simp only [saveState]
      rw [if_pos (by simp [ht, maxUndoStack])]
      exact List.dropLast_cons_of_ne_nil hne

/-- Witness for C4 at the fresh empty-history state with a concrete operation
sequence. -/
theorem c4_undo_stack_bounded_witness :
    ((mkState "ab" 0 1 Mode.normal).undoStack = [] ∧
      (mkState "ab" 0 1 Mode.normal).redoStack = []) ∧
    ((∀ ops : List UndoOp,
        (applyUndoOps (mkState "ab" 0 1 Mode.normal) ops).undoStack.length ≤ maxUndoStack) ∧
      (∀ t : EngineState, t.undoStack.length = maxUndoStack →
        (saveState t).undoStack.length = maxUndoStack ∧
        (saveState t).undoStack =
          Snapshot.mk t.text t.selStart :: t.undoStack.dropLast) ∧
      (∀ t : EngineState, (saveState t).redoStack = [])) :=
  ⟨⟨rfl, rfl⟩, c4_undo_stack_bounded _ rfl rfl⟩

/-- C7 (code bug): with a pending compound key waiting and its timeout armed,
`setEnabled false` disables the engine but leaves both the pending key and
the armed timer untouched, so the stale timer callback still fires after the
engine is disabled and the pending key even survives a disable/enable cycle;
`cleanup` cancels the timer but also leaves the pending key set. -/
theorem c7_setEnabled_false_keeps_pending :
    (setEnabled { mkState "ab" 0 1 Mode.normal with
        pendingKey := some "d", pendingTimer := true } false).pendingKey = some "d" ∧
    (setEnabled { mkState "ab" 0 1 Mode.normal with
        pendingKey := some "d", pendingTimer := true } false).pendingTimer = true ∧
    (setEnabled { mkState "ab" 0 1 Mode.normal with
        pendingKey := some "d", pendingTimer := true } false).enabled = false ∧
    (cleanup { mkState "ab" 0 1 Mode.normal with
        pendingKey := some "d", pendingTimer := true }).pendingTimer = false ∧
    (cleanup { mkState "ab" 0 1 Mode.normal with
        pendingKey := some "d", pendingTimer := true }).pendingKey = some "d" := by
  decide

/-- C3 counterexample: Normal mode, pending key `g`, second key `x`: the
compound `gx` matches no known compound; the handler clears the pending key
and changes nothing else, but `handleKeyDown` returns `false` — the event is
NOT treated as handled, contradicting the claim that it returns `true`. -/
theorem c3_counterexample :
    (handleKeyDown { mkState "ab" 0 1 Mode.normal with
        pendingKey := some "g", pendingTimer := true } (kev "x") none).2 = false ∧
    (handleKeyDown { mkState "ab" 0 1 Mode.normal with
        pendingKey := some "g", pendingTimer := true } (kev "x") none).1 =
      { mkState "ab" 0 1 Mode.normal with pendingKey := none, pendingTimer := false } := by
  decide

/-- C3 (amended): in Normal mode with a pending key, a second key whose
concatenation matches none of `gg`/`dd`/`yy` clears the pending key,
performs no buffer/selection/mode change, and returns `false` (the event is
left unhandled, falling through to the host), not `true`. -/
theorem c3_unmatched_compound (s : EngineState) (e : KeyEvent)
    (clip : Option (List Char)) (pk : String)
    (he : s.enabled = true) (hm : s.mode = Mode.normal) (hp : s.pendingKey = some pk)
    (hno : pk ++ e.key ≠ "gg" ∧ pk ++ e.key ≠ "dd" ∧ pk ++ e.key ≠ "yy") :
    handleKeyDown s e clip =
      ({ s with pendingKey := none, pendingTimer := false }, false) := by
  simp [handleKeyDown, handleNormalMode, he, hm, hp, hno.1, hno.2.1, hno.2.2,
    clearPendingKey]

/-- Witness for the amended C3 at pending `d` plus second key `h`. -/
theorem c3_unmatched_compound_witness :
    handleKeyDown { mkState "ab" 0 1 Mode.normal with
        pendingKey := some "d", pendingTimer := true } (kev "h") none =
      ({ { mkState "ab" 0 1 Mode.normal with
            pendingKey := some "d", pendingTimer := true } with
          pendingKey := none, pendingTimer := false }, false) :=
  c3_unmatched_compound _ _ none "d" rfl rfl rfl ⟨by decide, by decide, by decide⟩

theorem saveState_undoStack (s : EngineState) :
    (saveState s).undoStack =
      if maxUndoStack < s.undoStack.length + 1
      then (Snapshot.mk s.text s.selStart :: s.undoStack).dropLast
      else Snapshot.mk s.text s.selStart :: s.undoStack := by
  simp [saveState]

theorem undo_cons (s : EngineState) (st : Snapshot) (rest : List Snapshot)
    (hu : s.undoStack = st :: rest) :
    undo s = setSelectionRange (setValue { s with
      redoStack := Snapshot.mk s.text s.selStart :: s.redoStack,
      undoStack := rest } st.text) st.cursor st.cursor SelDir.noDir := by
  unfold undo
  rw [hu]

/-- C10: pressing `x` in Normal mode with the cursor offset equal to the
buffer length leaves text and selection unchanged, yet still pushes an undo
snapshot `{text, cursor}` (the snapshot is taken before the bounds check)
and clears the redo stack; a subsequent `u` consumes that no-op snapshot
(text unchanged, undo stack popped) with the redo stack now holding only
the state from before the `u`. -/
theorem c10_x_at_end_noop_snapshot (s : EngineState)
    (he : s.enabled = true) (hm : s.mode = Mode.normal) (hp : s.pendingKey = none)
    (hpos : s.selStart = s.text.length)
    (hcap : s.undoStack.length ≤ maxUndoStack) :
    (handleKeyDown s (kev "x") none).1.text = s.text ∧
    (handleKeyDown s (kev "x") none).1.selStart = s.selStart ∧
    (handleKeyDown s (kev "x") none).1.selEnd = s.selEnd ∧
    (handleKeyDown s (kev "x") none).1.mode = s.mode ∧
    (handleKeyDown s (kev "x") none).1.undoStack.head? =
      some (Snapshot.mk s.text s.selStart) ∧
    (handleKeyDown s (kev "x") none).1.undoStack.length =
      min (s.undoStack.length + 1) maxUndoStack ∧
    (handleKeyDown s (kev "x") none).1.redoStack = [] ∧
    (handleKeyDown (handleKeyDown s (kev "x") none).1 (kev "u") none).1.text = s.text ∧
    (handleKeyDown (handleKeyDown s (kev "x") none).1 (kev "u") none).1.redoStack =
      [Snapshot.mk s.text s.selStart] ∧
    (handleKeyDown (handleKeyDown s (kev "x") none).1 (kev "u") none).1.undoStack =
      (handleKeyDown s (kev "x") none).1.undoStack.tail := by
  have hx : handleKeyDown s (kev "x") none = (deleteCharAtCursor s, true) := by
    simp [handleKeyDown, handleNormalMode, kev, he, hm, hp]
  have hdel : deleteCharAtCursor s = saveState s := by
    unfold deleteCharAtCursor
    dsimp only
    rw [if_neg (by simp only [saveState_selStart, saveState_text]; omega)]
  rw [hx]
  dsimp only
  rw [hdel]
  obtain ⟨rest, hstack⟩ : ∃ rest, (saveState s).undoStack =
      Snapshot.mk s.text s.selStart :: rest := by
    rw [saveState_undoStack]
    split_ifs with hfull
    · have hne : s.undoStack ≠ [] := by
        intro hcon; rw [hcon] at hfull; simp [maxUndoStack] at hfull
      exact ⟨s.undoStack.dropLast, List.dropLast_cons_of_ne_nil hne⟩
    · exact ⟨s.undoStack, rfl⟩
  have hlen : (saveState s).undoStack.length = min (s.undoStack.length + 1) maxUndoStack := by
    rw [saveState_undoStack]
    split_ifs with hfull
    · simp only [List.length_dropLast, List.length_cons]
      omega
    · simp only [List.length_cons]
      omega
  have hu : handleKeyDown (saveState s) (kev "u") none = (undo (saveState s), true) := by
    simp [handleKeyDown, handleNormalMode, kev, he, hm, hp]
  have hundo := undo_cons (saveState s) _ _ hstack
  refine ⟨rfl, rfl, rfl, rfl, ?_, hlen, rfl, ?_, ?_, ?_⟩
  · rw [hstack]; rfl
  · rw [hu]; dsimp only; rw [hundo]; simp
  · rw [hu]; dsimp only; rw [hundo]; simp
  · rw [hu]; dsimp only; rw [hundo]; rw [hstack]; simp

/-- Witness for C10 on the empty buffer (cursor offset equals length 0). -/
theorem c10_x_at_end_noop_snapshot_witness :
    (handleKeyDown (mkState "" 0 0 Mode.normal) (kev "x") none).1.text =
      (mkState "" 0 0 Mode.normal).text ∧
    (handleKeyDown (mkState "" 0 0 Mode.normal) (kev "x") none).1.selStart = 0 ∧
    (handleKeyDown (mkState "" 0 0 Mode.normal) (kev "x") none).1.selEnd = 0 ∧
    (handleKeyDown (mkState "" 0 0 Mode.normal) (kev "x") none).1.mode = Mode.normal ∧
    (handleKeyDown (mkState "" 0 0 Mode.normal) (kev "x") none).1.undoStack.head? =
      some (Snapshot.mk [] 0) ∧
    (handleKeyDown (mkState "" 0 0 Mode.normal) (kev "x") none).1.undoStack.length = 1 ∧
    (handleKeyDown (mkState "" 0 0 Mode.normal) (kev "x") none).1.redoStack = [] := by
  have h := c10_x_at_end_noop_snapshot (mkState "" 0 0 Mode.normal) rfl rfl rfl rfl
    (by simp [mkState, maxUndoStack])
  exact ⟨h.1, h.2.1, h.2.2.1, h.2.2.2.1, h.2.2.2.2.1, h.2.2.2.2.2.1, h.2.2.2.2.2.2.1⟩

/-- C8: every transition into Normal mode (`setMode normal`, which is the
unique way the engine enters Normal) re-applies block-cursor semantics: not
at end of buffer, exactly the character at the cursor is selected
(`[pos, pos+1]`); at end of non-empty text, the last character
(`[pos-1, pos]`); on an empty buffer the zero-width caret is unchanged. -/
theorem c8_enter_normal_block_cursor (s : EngineState) (h : wf s) :
    (s.selStart < s.text.length →
      (setMode s Mode.normal).selStart = s.selStart ∧
      (setMode s Mode.normal).selEnd = s.selStart + 1) ∧
    (s.selStart = s.text.length → 0 < s.text.length →
      (setMode s Mode.normal).selStart = s.selStart - 1 ∧
      (setMode s Mode.normal).selEnd = s.selStart) ∧
    (s.text.length = 0 →
      (setMode s Mode.normal).selStart = 0 ∧ (setMode s Mode.normal).selEnd = 0) := by
  have h1 := h.1
  have h2 := h.2.1
  unfold setMode updateCursorAppearance
  dsimp only
  refine ⟨?_, ?_, ?_⟩
  · intro hlt
    rw [if_pos rfl, if_pos hlt]
    exact ⟨rfl, rfl⟩
  · intro heq hlen
    rw [if_pos rfl, if_neg (by omega), if_pos hlen]
    exact ⟨rfl, rfl⟩
  · intro hlen
    rw [if_pos rfl, if_neg (by omega), if_neg (by omega)]
    constructor <;> dsimp only <;> omega

/-- Witness for C8 at a concrete mid-buffer state. -/
theorem c8_enter_normal_block_cursor_witness :
    wf (mkState "ab" 1 1 Mode.insert) ∧
    (((mkState "ab" 1 1 Mode.insert).selStart < (mkState "ab" 1 1 Mode.insert).text.length →
      (setMode (mkState "ab" 1 1 Mode.insert) Mode.normal).selStart = 1 ∧
      (setMode (mkState "ab" 1 1 Mode.insert) Mode.normal).selEnd = 2) ∧
    ((mkState "ab" 1 1 Mode.insert).selStart = (mkState "ab" 1 1 Mode.insert).text.length →
      0 < (mkState "ab" 1 1 Mode.insert).text.length →
      (setMode (mkState "ab" 1 1 Mode.insert) Mode.normal).selStart = 0 ∧
      (setMode (mkState "ab" 1 1 Mode.insert) Mode.normal).selEnd = 1) ∧
    ((mkState "ab" 1 1 Mode.insert).text.length = 0 →
      (setMode (mkState "ab" 1 1 Mode.insert) Mode.normal).selStart = 0 ∧
      (setMode (mkState "ab" 1 1 Mode.insert) Mode.normal).selEnd = 0)) :=
  ⟨by unfold wf mkState; decide,
    c8_enter_normal_block_cursor _ (by unfold wf mkState; decide)⟩

/-- C9 counterexample: on an empty buffer, `v` enters Visual mode with the
anchor at the cursor, but the resulting selection is the zero-width caret
`(0, 0)` — contradicting "the resulting selection is never zero-width". -/
theorem c9_counterexample :
    (handleKeyDown (mkState "" 0 0 Mode.normal) (kev "v") none).1.mode = Mode.visual ∧
    (handleKeyDown (mkState "" 0 0 Mode.normal) (kev "v") none).1.visualStart = some 0 ∧
    (handleKeyDown (mkState "" 0 0 Mode.normal) (kev "v") none).1.selStart =
      (handleKeyDown (mkState "" 0 0 Mode.normal) (kev "v") none).1.selEnd := by
  decide

/-- C9 (amended): `v` in Normal mode enters Visual mode with the anchor at
the cursor; when the cursor sits on a character the selection covers exactly
that character (forward); at the end of non-empty text it covers the
preceding (last) character (backward); the selection is zero-width only on
an empty buffer. -/
theorem c9_v_enters_visual (s : EngineState) (h : wf s)
    (he : s.enabled = true) (hm : s.mode = Mode.normal) (hp : s.pendingKey = none) :
    (handleKeyDown s (kev "v") none).1.mode = Mode.visual ∧
    (handleKeyDown s (kev "v") none).1.visualStart = some s.selStart ∧
    (s.selStart < s.text.length →
      (handleKeyDown s (kev "v") none).1.selStart = s.selStart ∧
      (handleKeyDown s (kev "v") none).1.selEnd = s.selStart + 1 ∧
      (handleKeyDown s (kev "v") none).1.selDir = SelDir.forward) ∧
    (s.selStart = s.text.length → 0 < s.selStart →
      (handleKeyDown s (kev "v") none).1.selStart = s.selStart - 1 ∧
      (handleKeyDown s (kev "v") none).1.selEnd = s.selStart ∧
      (handleKeyDown s (kev "v") none).1.selDir = SelDir.backward) ∧
    (0 < s.text.length →
      (handleKeyDown s (kev "v") none).1.selStart <
        (handleKeyDown s (kev "v") none).1.selEnd) ∧
    (s.text.length = 0 →
      (handleKeyDown s (kev "v") none).1.selStart =
        (handleKeyDown s (kev "v") none).1.selEnd) := by
  have h1 := h.1
  have h2 := h.2.1
  have hv : handleKeyDown s (kev "v") none = (startVisual s, true) := by
    simp [handleKeyDown, handleNormalMode, kev, he, hm, hp]
  rw [hv]
  dsimp only
  unfold startVisual
  dsimp only
  refine ⟨by split_ifs <;> simp, by split_ifs <;> simp, ?_, ?_, ?_, ?_⟩
  · intro hlt
    rw [if_pos hlt]
    refine ⟨?_, ?_, ?_⟩ <;> simp
  · intro heq hpos
    rw [if_neg (by omega), if_pos hpos]
    refine ⟨?_, ?_, ?_⟩ <;> simp
  · intro hlen
    by_cases hlt : s.selStart < s.text.length
    · rw [if_pos hlt]; simp
    · rw [if_neg hlt, if_pos (by omega)]
      simp only [setMode_visual_eq, setSelectionRange_selStart, setSelectionRange_selEnd]
      omega
  · intro hlen
    rw [if_neg (by omega), if_neg (by omega)]
    simp

/-- Witness for the amended C9 at a concrete one-character buffer. -/
theorem c9_v_enters_visual_witness :
    wf (mkState "a" 0 1 Mode.normal) ∧
    (handleKeyDown (mkState "a" 0 1 Mode.normal) (kev "v") none).1.mode = Mode.visual ∧
    (handleKeyDown (mkState "a" 0 1 Mode.normal) (kev "v") none).1.visualStart = some 0 :=
  ⟨by unfold wf mkState; decide,
    (c9_v_enters_visual _ (by unfold wf mkState; decide) rfl rfl rfl).1,
    (c9_v_enters_visual _ (by unfold wf mkState; decide) rfl rfl rfl).2.1⟩

/-- Entering Normal mode applies block-cursor reselection relative to the
state's `selStart` (shared computation helper). -/
theorem setMode_normal_sel (s : EngineState) :
    (s.selStart < s.text.length →
      (setMode s Mode.normal).selStart = s.selStart ∧
      (setMode s Mode.normal).selEnd = s.selStart + 1) ∧
    (¬ s.selStart < s.text.length → 0 < s.text.length →
      (setMode s Mode.normal).selStart = s.selStart - 1 ∧
      (setMode s Mode.normal).selEnd = s.selStart) ∧
    (s.text.length = 0 →
      (setMode s Mode.normal).selStart = s.selStart ∧
      (setMode s Mode.normal).selEnd = s.selEnd) := by
  unfold setMode updateCursorAppearance
  dsimp only
  refine ⟨?_, ?_, ?_⟩
  · intro hlt
    rw [if_pos rfl, if_pos hlt]
    exact ⟨rfl, rfl⟩
  · intro hge hlen
    rw [if_pos rfl, if_neg hge, if_pos hlen]
    exact ⟨rfl, rfl⟩
  · intro hlen
    rw [if_pos rfl, if_neg (by omega), if_neg (by omega)]
    exact ⟨rfl, rfl⟩

/-- C6 counterexample: Visual mode over `"abcde"`, anchor 0, forward
selection `[0, 3)` whose active end is 3.  Escape does go to Normal mode and
clears the anchor, but the caret collapses to the selection start 0 (block
cursor `[0, 1)`), not to the active end 3 (which would give block cursor
`[3, 4)`). -/
theorem c6_counterexample :
    (getVisualAnchorAndActive { mkState "abcde" 0 3 Mode.visual with
        visualStart := some 0, selDir := SelDir.forward }).2 = 3 ∧
    (handleKeyDown { mkState "abcde" 0 3 Mode.visual with
        visualStart := some 0, selDir := SelDir.forward } (kev "Escape") none).1.mode =
      Mode.normal ∧
    (handleKeyDown { mkState "abcde" 0 3 Mode.visual with
        visualStart := some 0, selDir := SelDir.forward } (kev "Escape") none).1.visualStart =
      none ∧
    (handleKeyDown { mkState "abcde" 0 3 Mode.visual with
        visualStart := some 0, selDir := SelDir.forward } (kev "Escape") none).1.selStart = 0 ∧
    (handleKeyDown { mkState "abcde" 0 3 Mode.visual with
        visualStart := some 0, selDir := SelDir.forward } (kev "Escape") none).1.selEnd = 1 ∧
    (handleKeyDown { mkState "abcde" 0 3 Mode.visual with
        visualStart := some 0, selDir := SelDir.forward } (kev "Escape") none).1.selStart ≠ 3 ∧
    (handleKeyDown { mkState "abcde" 0 3 Mode.visual with
        visualStart := some 0, selDir := SelDir.forward } (kev "Escape") none).1.selEnd ≠ 4 := by
  decide

/-- C6 (amended): Escape (or Ctrl+[) in Visual/Visual-Line mode transitions
to Normal mode, clears the anchor, and collapses the selection to a caret at
the selection's start (its smaller offset) — which equals the active end
only for backward selections — after which Normal-mode block-cursor
reselection applies. -/
theorem c6_escape_collapses_to_start (s : EngineState)
    (he : s.enabled = true)
    (hm : s.mode = Mode.visual ∨ s.mode = Mode.visualLine)
    (e : KeyEvent) (clip : Option (List Char))
    (hesc : e.key = "Escape" ∨ (e.ctrl = true ∧ e.key = "[")) :
    (handleKeyDown s e clip).1.mode = Mode.normal ∧
    (handleKeyDown s e clip).1.visualStart = none ∧
    (handleKeyDown s e clip).1.text = s.text ∧
    (s.selStart < s.text.length →
      (handleKeyDown s e clip).1.selStart = s.selStart ∧
      (handleKeyDown s e clip).1.selEnd = s.selStart + 1) ∧
    (s.selStart = s.text.length → 0 < s.text.length →
      (handleKeyDown s e clip).1.selStart = s.selStart - 1 ∧
      (handleKeyDown s e clip).1.selEnd = s.selStart) ∧
    (s.text.length = 0 →
      (handleKeyDown s e clip).1.selStart = s.selStart ∧
      (handleKeyDown s e clip).1.selEnd = s.selStart) := by
  have hvm : handleKeyDown s e clip = handleVisualMode s e clip := by
    rcases hm with hm | hm <;> simp [handleKeyDown, he, hm]
  rw [hvm]
  unfold handleVisualMode
  rw [if_pos hesc]
  dsimp only
  have hs := setMode_normal_sel
    { setSelectionRange s s.selStart s.selStart SelDir.noDir with visualStart := none }
  refine ⟨by simp, by simp, by simp, ?_, ?_, ?_⟩
  · intro hlt
    have := hs.1 (by simpa using hlt)
    simpa using this
  · intro heq hlen
    have := hs.2.1 (by simp; omega) (by simpa using hlen)
    simpa using this
  · intro hlen
    have := hs.2.2 (by simpa using hlen)
    simpa using this

/-- Witness for the amended C6: backward selection `[1, 3)` anchored at 3 in
`"abcd"`. -/
theorem c6_escape_collapses_to_start_witness :
    wf { mkState "abcd" 1 3 Mode.visual with
        visualStart := some 3, selDir := SelDir.backward } ∧
    (handleKeyDown { mkState "abcd" 1 3 Mode.visual with
        visualStart := some 3, selDir := SelDir.backward } (kev "Escape") none).1.mode =
      Mode.normal ∧
    (handleKeyDown { mkState "abcd" 1 3 Mode.visual with
        visualStart := some 3, selDir := SelDir.backward } (kev "Escape") none).1.visualStart =
      none :=
  ⟨by unfold wf mkState; decide,
    (c6_escape_collapses_to_start _ rfl (Or.inl rfl) _ none (Or.inl rfl)).1,
    (c6_escape_collapses_to_start _ rfl (Or.inl rfl) _ none (Or.inl rfl)).2.1⟩

/-- The block-cursor reselection performed by `updateCursorAppearance` in
Normal mode, expressed on the incoming state's fields. -/
theorem updateCursorAppearance_normal_sel (s : EngineState) :
    (s.selStart < s.text.length →
      (updateCursorAppearance s Mode.normal).selStart = s.selStart ∧
      (updateCursorAppearance s Mode.normal).selEnd = s.selStart + 1) ∧
    (¬ s.selStart < s.text.length → 0 < s.text.length →
      (updateCursorAppearance s Mode.normal).selStart = s.selStart - 1 ∧
      (updateCursorAppearance s Mode.normal).selEnd = s.selStart) ∧
    (s.text.length = 0 →
      (updateCursorAppearance s Mode.normal).selStart = s.selStart ∧
      (updateCursorAppearance s Mode.normal).selEnd = s.selEnd) := by
  unfold updateCursorAppearance
  dsimp only
  refine ⟨?_, ?_, ?_⟩
  · intro hlt
    rw [if_pos rfl, if_pos hlt]
    exact ⟨rfl, rfl⟩
  · intro hge hlen
    rw [if_pos rfl, if_neg hge, if_pos hlen]
    exact ⟨rfl, rfl⟩
  · intro hlen
    rw [if_pos rfl, if_neg (by omega), if_neg (by omega)]
    exact ⟨rfl, rfl⟩

/-- C5 counterexample: buffer `"abc\nx"`, cursor at offset 2 (line 0,
column 2).  `j` places the cursor at offset 4 (column 0 of line `"x"`,
block `[4, 5)`), because the code clamps the column to
`min(col, nextLen - 1) = min(2, 0) = 0`; the claim's formula
`min(col, next line length) = min(2, 1) = 1` would put it at offset 5. -/
theorem c5_counterexample :
    (run (mkState "abc\nx" 2 3 Mode.normal) [(kev "j", none)]).selStart = 4 ∧
    (run (mkState "abc\nx" 2 3 Mode.normal) [(kev "j", none)]).selEnd = 5 ∧
    (getLineEnd "abc\nx".toList 2 + 1 +
      min (2 - getLineStart "abc\nx".toList 2)
        (getLineEnd "abc\nx".toList (getLineEnd "abc\nx".toList 2 + 1) -
          (getLineEnd "abc\nx".toList 2 + 1)) = 5) ∧
    (run (mkState "abc\nx" 2 3 Mode.normal) [(kev "j", none)]).selStart ≠ 5 := by
  decide

/-- C5 (amended): in Normal mode, `k` is a no-op on the first line and `j` on
the last; otherwise they place the cursor at column
`min(current column, max(0, target line length - 1))` of the destination
line (one short of the claimed `min(col, target line length)`): the cursor
lands inside the destination line, at most on its terminal-newline position
and on it only when the destination line is empty, after which Normal-mode
block-cursor reselection applies. -/
theorem c5_jk_clamped_column (s : EngineState) (h : wf s)
    (he : s.enabled = true) (hm : s.mode = Mode.normal) (hp : s.pendingKey = none) :
    (getLineStart s.text s.selStart = 0 →
      (handleKeyDown s (kev "k") none).1 = s) ∧
    (getLineStart s.text s.selStart ≠ 0 →
      (handleKeyDown s (kev "k") none).1.text = s.text ∧
      (handleKeyDown s (kev "k") none).1.selStart = moveUpTarget s.text s.selStart ∧
      getLineStart s.text (getLineStart s.text s.selStart - 1) ≤
        moveUpTarget s.text s.selStart ∧
      moveUpTarget s.text s.selStart ≤ getLineStart s.text s.selStart - 1 ∧
      (handleKeyDown s (kev "k") none).1.selEnd = moveUpTarget s.text s.selStart + 1) ∧
    (getLineEnd s.text s.selStart = s.text.length →
      (handleKeyDown s (kev "j") none).1 = s) ∧
    (getLineEnd s.text s.selStart < s.text.length →
      (handleKeyDown s (kev "j") none).1.text = s.text ∧
      getLineEnd s.text s.selStart + 1 ≤ moveDownTarget s.text s.selStart ∧
      moveDownTarget s.text s.selStart ≤
        getLineEnd s.text (getLineEnd s.text s.selStart + 1) ∧
      (moveDownTarget s.text s.selStart < s.text.length →
        (handleKeyDown s (kev "j") none).1.selStart = moveDownTarget s.text s.selStart ∧
        (handleKeyDown s (kev "j") none).1.selEnd =
          moveDownTarget s.text s.selStart + 1) ∧
      (moveDownTarget s.text s.selStart = s.text.length →
        (handleKeyDown s (kev "j") none).1.selStart =
          moveDownTarget s.text s.selStart - 1 ∧
        (handleKeyDown s (kev "j") none).1.selEnd =
          moveDownTarget s.text s.selStart)) := by
  have hsel : s.selStart ≤ s.text.length := Nat.le_trans h.1 h.2.1
  have hls := getLineStart_le s.text s.selStart
  have hk : handleKeyDown s (kev "k") none = (moveCursorUp s, true) := by
    simp [handleKeyDown, handleNormalMode, kev, he, hm, hp]
  have hj : handleKeyDown s (kev "j") none = (moveCursorDown s, true) := by
    simp [handleKeyDown, handleNormalMode, kev, he, hm, hp]
  refine ⟨?_, ?_, ?_, ?_⟩
  · intro h0
    rw [hk]
    dsimp only
    unfold moveCursorUp
    dsimp only
    rw [if_pos h0]
  · intro h0
    rw [hk]
    dsimp only
    unfold moveCursorUp
    dsimp only
    rw [if_neg h0]
    have hpls := getLineStart_le s.text (getLineStart s.text s.selStart - 1)
    have htgt : getLineStart s.text (getLineStart s.text s.selStart - 1) +
        max 0 (min (s.selStart - getLineStart s.text s.selStart)
          (max 0 (getLineStart s.text s.selStart - 1 -
            getLineStart s.text (getLineStart s.text s.selStart - 1) - 1))) =
        moveUpTarget s.text s.selStart := by
      unfold moveUpTarget
      dsimp only
      omega
    rw [setSelectionRange_mode, hm, htgt]
    have hnp : moveUpTarget s.text s.selStart < s.text.length := by
      unfold moveUpTarget
      dsimp only
      omega
    have hs := (updateCursorAppearance_normal_sel
      (setSelectionRange s (moveUpTarget s.text s.selStart)
        (moveUpTarget s.text s.selStart) SelDir.noDir)).1
      (by simpa using hnp)
    refine ⟨by simp, by simpa using hs.1, ?_, ?_, by simpa using hs.2⟩
    · unfold moveUpTarget
      dsimp only
      omega
    · unfold moveUpTarget
      dsimp only
      omega
  · intro h0
    rw [hj]
    dsimp only
    unfold moveCursorDown
    dsimp only
    rw [if_pos (by omega)]
  · intro h0
    rw [hj]
    dsimp only
    unfold moveCursorDown
    dsimp only
    rw [if_neg (by omega)]
    have hnls : getLineEnd s.text s.selStart + 1 ≤
        getLineEnd s.text (getLineEnd s.text s.selStart + 1) := le_getLineEnd _ _
    have hnle : getLineEnd s.text (getLineEnd s.text s.selStart + 1) ≤ s.text.length :=
      getLineEnd_le _ _ (by omega)
    have htgt : getLineEnd s.text s.selStart + 1 +
        max 0 (min (s.selStart - getLineStart s.text s.selStart)
          (max 0 (getLineEnd s.text (getLineEnd s.text s.selStart + 1) -
            (getLineEnd s.text s.selStart + 1) - 1))) =
        moveDownTarget s.text s.selStart := by
      unfold moveDownTarget
      dsimp only
      omega
    rw [setSelectionRange_mode, hm, htgt]
    have hbounds : getLineEnd s.text s.selStart + 1 ≤ moveDownTarget s.text s.selStart ∧
        moveDownTarget s.text s.selStart ≤
          getLineEnd s.text (getLineEnd s.text s.selStart + 1) := by
      unfold moveDownTarget
      dsimp only
      omega
    have hsu := updateCursorAppearance_normal_sel
      (setSelectionRange s (moveDownTarget s.text s.selStart)
        (moveDownTarget s.text s.selStart) SelDir.noDir)
    refine ⟨by simp, hbounds.1, hbounds.2, ?_, ?_⟩
    · intro hlt
      have hs := hsu.1 (by simpa using hlt)
      exact ⟨by simpa using hs.1, by simpa using hs.2⟩
    · intro heq
      have hs := hsu.2.1 (by simp; omega) (by simp; omega)
      exact ⟨by simpa using hs.1, by simpa using hs.2⟩

/-- Witness for the amended C5 on `"ab\ncd"` with the cursor at column 1 of
line 1 (`k` goes to column 1 of line 0) and at line 0 for the `j` no-op
check of a last line. -/
theorem c5_jk_clamped_column_witness :
    wf (mkState "ab\ncd" 4 5 Mode.normal) ∧
    ((handleKeyDown (mkState "ab\ncd" 4 5 Mode.normal) (kev "k") none).1.selStart =
      moveUpTarget "ab\ncd".toList 4 ∧ moveUpTarget "ab\ncd".toList 4 = 1) :=
  ⟨by unfold wf mkState; decide,
    ((c5_jk_clamped_column _ (by unfold wf mkState; decide) rfl rfl rfl).2.1
      (by decide)).2.1,
    by decide⟩

/-- When the effective paste text is non-empty, `pasteAfterCursor` inserts it
at `min(length, selStart + 1)` and leaves the caret there. -/
theorem pasteAfterCursor_insert (s : EngineState) (clip : Option (List Char))
    (heff : effectivePasteText clip s.yankBuffer ≠ []) :
    (pasteAfterCursor s clip).text =
      s.text.take (min s.text.length (s.selStart + 1)) ++
        effectivePasteText clip s.yankBuffer ++
        s.text.drop (min s.text.length (s.selStart + 1)) ∧
    (pasteAfterCursor s clip).selStart = min s.text.length (s.selStart + 1) ∧
    (pasteAfterCursor s clip).selEnd = min s.text.length (s.selStart + 1) ∧
    (pasteAfterCursor s clip).mode = s.mode := by
  unfold pasteAfterCursor
  dsimp only
  rw [if_neg (by simpa [List.length_eq_zero] using heff)]
  refine ⟨?_, ?_, ?_, ?_⟩ <;> simp

theorem lineIdx_succ_of_not_newline (t : List Char) (n : Nat) (hc : t.getD n ' ' ≠ '\n') :
    lineIdx t (n + 1) = lineIdx t n := by
  unfold lineIdx
  rw [List.take_succ, List.count_append]
  cases hn : t[n]? with
  | none => simp
  | some c =>
    have hlt : n < t.length := by
      by_contra hge
      rw [List.getElem?_eq_none (by omega)] at hn
      cases hn
    have hcn : c ≠ '\n' := by
      intro heq
      rw [List.getElem?_eq_getElem hlt] at hn
      have h2 : t.getD n ' ' = c := by
        rw [List.getD_eq_getElem t ' ' hlt]
        exact Option.some.inj hn
      exact hc (h2.trans heq)
    simp [List.count_cons, hcn]

theorem lineIdx_getLineStart (t : List Char) (p : Nat) :
    lineIdx t (getLineStart t p) = lineIdx t p := by
  induction p with
  | zero => rfl
  | succ n ih =>
    unfold getLineStart
    split_ifs with hc
    · rfl
    · rw [ih, lineIdx_succ_of_not_newline t n hc]

/-- C1 counterexample: buffer `"a\nb"`, cursor on the first line.  `dd` yanks
`"a\n"` (including the newline) and deletes the line, leaving `"b"` with the
caret at 0; but `p` inserts at `min(length, cursor + 1) = 1`, yielding
`"ba\n"` — the original buffer is not restored (same failure whether `p`
reads the yank from the clipboard or falls back to the register). -/
theorem c1_counterexample :
    (run (mkState "a\nb" 0 1 Mode.normal)
      [(kev "d", none), (kev "d", none), (kev "p", none)]).text = "ba\n".toList ∧
    (run (mkState "a\nb" 0 1 Mode.normal)
      [(kev "d", none), (kev "d", none), (kev "p", none)]).text ≠
      (mkState "a\nb" 0 1 Mode.normal).text ∧
    (run (mkState "a\nb" 0 1 Mode.normal)
      [(kev "d", none), (kev "d", none), (kev "p", some "a\n".toList)]).text ≠
      (mkState "a\nb" 0 1 Mode.normal).text := by
  decide

/-- C1 (amended): `dd` followed immediately by `p` restores the original
buffer exactly — content and cursor line — when the cursor line is the last
line (the no-trailing-newline case, including single-line and empty
buffers), with the paste reading either the clipboard content `dd` just
mirrored there or (on a failed read) the yank register.  For a non-last line
the round trip fails (see the counterexample): `p` inserts the yanked line
at `cursor + 1`, not at the line start. -/
theorem c1_ddp_roundtrip_last_line (s : EngineState) (h : wf s)
    (he : s.enabled = true) (hm : s.mode = Mode.normal) (hp : s.pendingKey = none)
    (hlast : getLineEnd s.text s.selStart = s.text.length)
    (clip : Option (List Char))
    (hclip : clip = none ∨ clip = some (s.text.drop (getLineStart s.text s.selStart))) :
    (run s [(kev "d", none), (kev "d", none), (kev "p", clip)]).text = s.text ∧
    lineIdx (run s [(kev "d", none), (kev "d", none), (kev "p", clip)]).text
      (run s [(kev "d", none), (kev "d", none), (kev "p", clip)]).selStart =
      lineIdx s.text s.selStart ∧
    (run s [(kev "d", none), (kev "d", none), (kev "p", clip)]).mode = Mode.normal := by
  have hsel : s.selStart ≤ s.text.length := Nat.le_trans h.1 h.2.1
  have hls := getLineStart_le s.text s.selStart
  have hd1 : handleKeyDown s (kev "d") none = (setPendingKey s "d", true) := by
    simp [handleKeyDown, handleNormalMode, kev, he, hm, hp]
  have hd2 : handleKeyDown (setPendingKey s "d") (kev "d") none =
      (deleteCurrentLine (clearPendingKey (setPendingKey s "d")), true) := by
    simp [handleKeyDown, handleNormalMode, kev, he, hm]
  have hDfacts : (deleteCurrentLine (clearPendingKey (setPendingKey s "d"))).text =
        s.text.take (getLineStart s.text s.selStart) ∧
      (deleteCurrentLine (clearPendingKey (setPendingKey s "d"))).selStart =
        getLineStart s.text s.selStart ∧
      (deleteCurrentLine (clearPendingKey (setPendingKey s "d"))).yankBuffer =
        s.text.drop (getLineStart s.text s.selStart) ∧
      (deleteCurrentLine (clearPendingKey (setPendingKey s "d"))).mode = Mode.normal ∧
      (deleteCurrentLine (clearPendingKey (setPendingKey s "d"))).enabled = true ∧
      (deleteCurrentLine (clearPendingKey (setPendingKey s "d"))).pendingKey = none := by
    unfold deleteCurrentLine
    dsimp only
    simp only [saveState_text, saveState_selStart, clearPendingKey_text,
      clearPendingKey_selStart, setPendingKey_text, setPendingKey_selStart,
      saveState_mode, clearPendingKey_mode, setPendingKey_mode,
      saveState_enabled, clearPendingKey_enabled, setPendingKey_enabled,
      saveState_pendingKey, clearPendingKey_pendingKey,
      setSelectionRange_text, setSelectionRange_selStart, setSelectionRange_selEnd,
      setSelectionRange_yankBuffer, setSelectionRange_mode, setSelectionRange_enabled,
      setSelectionRange_pendingKey, setValue_text, setValue_mode, setValue_enabled,
      setValue_pendingKey, setValue_yankBuffer]
    rw [hlast, if_neg (by omega)]
    refine ⟨?_, trivial, ?_, hm, he, trivial⟩
    · rw [List.drop_length, List.append_nil]
    · unfold sliceList
      apply List.take_of_length_le
      simp

  have hd3 : handleKeyDown (deleteCurrentLine (clearPendingKey (setPendingKey s "d")))
      (kev "p") clip =
      (pasteAfterCursor (deleteCurrentLine (clearPendingKey (setPendingKey s "d"))) clip,
        true) := by
    simp [handleKeyDown, handleNormalMode, kev, hDfacts.2.2.2.1, hDfacts.2.2.2.2.1,
      hDfacts.2.2.2.2.2]
  have hrun : run s [(kev "d", none), (kev "d", none), (kev "p", clip)] =
      (handleKeyDown (handleKeyDown (handleKeyDown s (kev "d") none).1 (kev "d") none).1
        (kev "p") clip).1 := rfl
  rw [hrun, hd1]
  dsimp only
  rw [hd2]
  dsimp only
  rw [hd3]
  dsimp only
  have hlineIdx := lineIdx_getLineStart s.text s.selStart
  by_cases hempty : s.text.drop (getLineStart s.text s.selStart) = []
  · have hlslen : getLineStart s.text s.selStart = s.text.length := by
      have := List.drop_eq_nil_iff.mp hempty
      omega
    have heff : effectivePasteText clip
        (deleteCurrentLine (clearPendingKey (setPendingKey s "d"))).yankBuffer = [] := by
      rcases hclip with hc | hc <;> subst hc <;>
        simp [effectivePasteText, hDfacts.2.2.1, hempty]
    have hpn : pasteAfterCursor (deleteCurrentLine (clearPendingKey (setPendingKey s "d")))
        clip = deleteCurrentLine (clearPendingKey (setPendingKey s "d")) := by
      unfold pasteAfterCursor
      dsimp only
      rw [heff]
      simp
    rw [hpn]
    have htext : (deleteCurrentLine (clearPendingKey (setPendingKey s "d"))).text =
        s.text := by
      rw [hDfacts.1, hlslen, List.take_length]
    refine ⟨htext, ?_, hDfacts.2.2.2.1⟩
    rw [htext, hDfacts.2.1]
    exact hlineIdx
  · have heff : effectivePasteText clip
        (deleteCurrentLine (clearPendingKey (setPendingKey s "d"))).yankBuffer =
        s.text.drop (getLineStart s.text s.selStart) := by
      rcases hclip with hc | hc <;> subst hc
      · simp [effectivePasteText, hDfacts.2.2.1]
      · simp [effectivePasteText, hDfacts.2.2.1, List.length_pos.mpr hempty]
    have hlen : (deleteCurrentLine (clearPendingKey (setPendingKey s "d"))).text.length =
        getLineStart s.text s.selStart := by
      rw [hDfacts.1]
      simp [List.length_take]
      omega
    have hpos : min (deleteCurrentLine (clearPendingKey (setPendingKey s "d"))).text.length
        ((deleteCurrentLine (clearPendingKey (setPendingKey s "d"))).selStart + 1) =
        getLineStart s.text s.selStart := by
      rw [hlen, hDfacts.2.1]
      omega
    have hpaste := pasteAfterCursor_insert
      (deleteCurrentLine (clearPendingKey (setPendingKey s "d"))) clip
      (by rw [heff]; exact hempty)
    rw [heff, hpos] at hpaste
    have htext : (pasteAfterCursor (deleteCurrentLine (clearPendingKey (setPendingKey s "d")))
        clip).text = s.text := by
      rw [hpaste.1, hDfacts.1]
      rw [List.take_take, Nat.min_self]
      have hdrop : (s.text.take (getLineStart s.text s.selStart)).drop
          (getLineStart s.text s.selStart) = [] := by
        apply List.drop_eq_nil_of_le
        simp [List.length_take]
      rw [hdrop, List.append_nil, List.take_append_drop]
    refine ⟨htext, ?_, by rw [hpaste.2.2.2, hDfacts.2.2.2.1]⟩
    rw [htext, hpaste.2.1]
    exact hlineIdx

/-- Witness for the amended C1: two-line buffer `"ab\ncd"` with the cursor on
the last line. -/
theorem c1_ddp_roundtrip_last_line_witness :
    wf (mkState "ab\ncd" 3 4 Mode.normal) ∧
    getLineEnd "ab\ncd".toList 3 = "ab\ncd".toList.length ∧
    (run (mkState "ab\ncd" 3 4 Mode.normal)
      [(kev "d", none), (kev "d", none), (kev "p", none)]).text =
      (mkState "ab\ncd" 3 4 Mode.normal).text ∧
    (run (mkState "ab\ncd" 3 4 Mode.normal)
      [(kev "d", none), (kev "d", none), (kev "p", none)]).mode = Mode.normal :=
  ⟨by unfold wf mkState; decide, by decide,
    (c1_ddp_roundtrip_last_line _ (by unfold wf mkState; decide) rfl rfl rfl
      (by decide) none (Or.inl rfl)).1,
    (c1_ddp_roundtrip_last_line _ (by unfold wf mkState; decide) rfl rfl rfl
      (by decide) none (Or.inl rfl)).2.2⟩

end VimEngine
